import Mathlib

/-!
# Verification of the pr-contacts signature-mining pipeline

Shallow embedding of the core extraction pipeline of the repository:
`src/contact_extractor.py`, `src/country_detector.py`,
`src/company_resolver.py` and `src/categorizer.py`.

Python strings are modelled as `List Char`; the helpers below mirror the
Python string primitives used by the code (`str.split`, `str.strip`,
`str.lower`, substring membership, `str.title`).  The regular expressions
that the code feeds to `re.search` / `re.match` / `re.sub` / `re.findall`
are translated pattern-by-pattern into a small backtracking matcher
(`RAtom` / `matchList`) that enumerates candidate matches in exactly
Python's backtracking priority order (leftmost position first, greedy
quantifiers longest-first), so the first element of the enumeration is
the match `re` would produce.
-/

/-- Characters of a string literal (Python text is modelled as `List Char`). -/
def ls (s : String) : List Char := s.data

/-- Python `\s` / `str.strip` whitespace (ASCII range, as in the inputs used here). -/
def isPyWs (c : Char) : Bool :=
  c = ' ' ∨ c = '\t' ∨ c = '\n' ∨ c = '\r' ∨ c = '\x0b' ∨ c = '\x0c'

/-- Python `str.strip()`: drop whitespace from both ends. -/
def pyStrip (l : List Char) : List Char :=
  ((l.dropWhile isPyWs).reverse.dropWhile isPyWs).reverse

/-- Python `str.lower()` (ASCII). -/
def lowerL (l : List Char) : List Char := l.map Char.toLower

/-- Split at every character satisfying `p`, keeping empty pieces (returns
`[""]` on the empty string). -/
def splitOnPred (p : Char → Bool) : List Char → List (List Char)
  | [] => [[]]
  | x :: xs =>
    if p x then [] :: splitOnPred p xs
    else
      match splitOnPred p xs with
      | [] => [[x]]
      | piece :: rest => (x :: piece) :: rest

/-- Python `text.split(sep)` for a one-character separator: keeps empty pieces,
returns `[""]` on the empty string. -/
def splitOnChar (c : Char) : List Char → List (List Char) :=
  splitOnPred (fun x => x = c)

/-- Python `"\n".join(lines)` (generalised to any separator character). -/
def joinSep (c : Char) : List (List Char) → List Char
  | [] => []
  | [l] => l
  | l :: ls => l ++ c :: joinSep c ls

/-- Python `needle in hay` substring test. -/
def containsSub (hay needle : List Char) : Bool :=
  decide (needle <:+: hay)

/-- Python `str.split()` with no argument: split on whitespace runs, dropping
empty pieces (equivalently: split at every whitespace character, then drop the
empty pieces). -/
def pySplitWs (l : List Char) : List (List Char) :=
  (splitOnPred isPyWs l).filter (fun w => ¬ w.isEmpty)

/-- Python `str.title()` (ASCII): upper-case a letter that does not follow a
letter, lower-case a letter that does. -/
def pyTitleGo (prevAlpha : Bool) : List Char → List Char
  | [] => []
  | c :: cs =>
    (if c.isAlpha then (if prevAlpha then c.toLower else c.toUpper) else c) ::
      pyTitleGo c.isAlpha cs

def pyTitle (l : List Char) : List Char := pyTitleGo false l

/-! ## A small backtracking regex engine

Each pattern used by the source is a sequence of atoms: a character class
with a repetition count (`rep p lo hi`; `hi = none` means unbounded, so
`rep p 1 (some 1)` is a literal-class character, `rep p 0 (some 1)` is `X?`,
`rep p 0 none` is `X*`, `rep p 1 none` is `X+`), a word boundary `\b`
(`wordB`) or the end anchor `$` (`endA`, which in Python also matches just
before a final newline).  `matchList` enumerates all matches of the atom
sequence at the start of the input, in Python's backtracking priority order
(greedy: longer repetitions first), so `.head?` is `re`'s match.
-/

inductive RAtom where
  | rep (p : Char → Bool) (lo : Nat) (hi : Option Nat)
  | wordB
  | endA

/-- Candidate (consumed, rest) splits for one greedy repetition, longest
first, bounded by `lo`/`hi` and by the maximal run of the class. -/
def repSplits (p : Char → Bool) (lo : Nat) (hi : Option Nat) (s : List Char) :
    List (List Char × List Char) :=
  let maxRun := (s.takeWhile p).length
  let top := match hi with
    | none => maxRun
    | some h => min h maxRun
  (List.range (top + 1)).reverse.filterMap fun k =>
    if lo ≤ k then some (s.take k, s.drop k) else none

/-- Python `\w` (ASCII). -/
def isWordChar (c : Char) : Bool := c.isAlphanum ∨ c = '_'

def isWordOpt : Option Char → Bool
  | none => false
  | some c => isWordChar c

/-- `\b`: exactly one of the two neighbouring characters is a word character. -/
def isWordBoundary (prev next : Option Char) : Bool :=
  isWordOpt prev ≠ isWordOpt next

def lastOr (l : List Char) (prev : Option Char) : Option Char :=
  match l.getLast? with
  | some c => some c
  | none => prev

/-- All matches of the atom sequence at the start of `s` (each returned as the
consumed prefix), in backtracking priority order.  `prev` is the character
just before `s` in the overall subject (for `\b`). -/
def matchList (prev : Option Char) : List RAtom → List Char → List (List Char)
  | [], _ => [[]]
  | .rep p lo hi :: es, s =>
    (repSplits p lo hi s).flatMap fun pr =>
      (matchList (lastOr pr.1 prev) es pr.2).map (pr.1 ++ ·)
  | .wordB :: es, s =>
    if isWordBoundary prev s.head? then matchList prev es s else []
  | .endA :: es, s =>
    if s = [] ∨ s = ['\n'] then matchList prev es s else []

/-- Python `re.match(pat, s)` truthiness (anchored at the start). -/
def reMatchStart (pat : List RAtom) (s : List Char) : Bool :=
  (matchList none pat s).head?.isSome

/-- Leftmost match of `pat` in `s`: returns `(before, matched, after)`. -/
def reSearchFrom (pat : List RAtom) : Option Char → List Char →
    Option (List Char × List Char × List Char)
  | prev, s =>
    match (matchList prev pat s).head? with
    | some m => some ([], m, s.drop m.length)
    | none =>
      match s with
      | [] => none
      | c :: cs =>
        (reSearchFrom pat (some c) cs).map fun r => (c :: r.1, r.2.1, r.2.2)

/-- Python `re.search(pat, s)` returning `match.group()`. -/
def reSearch (pat : List RAtom) (s : List Char) : Option (List Char) :=
  (reSearchFrom pat none s).map fun r => r.2.1

/-- Python `re.search(pat, s)` truthiness. -/
def reTest (pat : List RAtom) (s : List Char) : Bool :=
  (reSearch pat s).isSome

/-- Python `re.sub(pat, repl, s)` for the patterns used by the source, all of
which are anchored so that at most one non-overlapping match exists (the scan
continues after the match, where nothing further can match). -/
def reSubFirst (pat : List RAtom) (repl : List Char) (s : List Char) : List Char :=
  match reSearchFrom pat none s with
  | none => s
  | some r => r.1 ++ repl ++ r.2.2

/-- Python `re.sub("^" ++ pat, "", s)`: a start-anchored deletion. -/
def reSubAtStart (pat : List RAtom) (s : List Char) : List Char :=
  match (matchList none pat s).head? with
  | none => s
  | some m => s.drop m.length

/-- Python `re.findall(pat, s)` (no groups): non-overlapping leftmost matches.
`fuel` bounds the recursion; `s.length + 1` always suffices because every step
either consumes the match or advances one character. -/
def reFindAllGo (pat : List RAtom) : Nat → Option Char → List Char → List (List Char)
  | 0, _, _ => []
  | fuel + 1, prev, s =>
    match reSearchFrom pat prev s with
    | none => []
    | some (pre, m, rest) =>
      match m with
      | [] =>
        -- Python advances one character past an empty match
        match rest with
        | [] => [[]]
        | c :: cs => [] :: reFindAllGo pat fuel (some c) cs
      | _ =>
        m :: reFindAllGo pat fuel (lastOr m (lastOr pre prev)) rest

def reFindAll (pat : List RAtom) (s : List Char) : List (List Char) :=
  reFindAllGo pat (s.length + 1) none s

/-! Atom-building helpers. -/

/-- A literal character (case already folded where the Python call used
`re.IGNORECASE`). -/
def litA (c : Char) : RAtom := .rep (fun x => x = c) 1 (some 1)

/-- A literal string as a sequence of atoms. -/
def litS (s : String) : List RAtom := s.data.map litA

/-- `X?` for a single character. -/
def optC (c : Char) : RAtom := .rep (fun x => x = c) 0 (some 1)

/-- `\s*`. -/
def wsStar : RAtom := .rep isPyWs 0 none

/-- `\s+`. -/
def wsPlus : RAtom := .rep isPyWs 1 none

/-- `\d{n}`. -/
def digN (n : Nat) : RAtom := .rep Char.isDigit n (some n)

/-- `\d{lo,hi}`. -/
def digR (lo hi : Nat) : RAtom := .rep Char.isDigit lo (some hi)

/-- The class `[-.\s]` used between phone groups. -/
def isPhoneSep (c : Char) : Bool := c = '-' ∨ c = '.' ∨ isPyWs c

/-- `[-.\s]?`. -/
def sepOpt : RAtom := .rep isPhoneSep 0 (some 1)

/-- `[-.\s]`. -/
def sepOne : RAtom := .rep isPhoneSep 1 (some 1)

def isLowerAz (c : Char) : Bool := 'a' ≤ c ∧ c ≤ 'z'

/-! ## ContactExtractor (src/contact_extractor.py)

Pattern tables, translated one-for-one from the Python class constants.
Patterns used with `re.IGNORECASE` are stored lower-cased and applied to the
lower-cased subject, which is equivalent for this ASCII data.
-/

namespace ContactExtractor

/-- `SIGNATURE_DELIMITERS`: each source pattern becomes a list of
alternatives (the one pattern with an inner alternation
`^Best\s*(?:regards|wishes)?,?\s*$` expands to three sequences; the rest are
singletons).  Tested with `re.match` against the stripped, lower-cased line. -/
def SIGNATURE_DELIMITERS : List (List (List RAtom)) :=
  [ [litS "--" ++ [wsStar, .endA]],
    [litS "---" ++ [wsStar, .endA]],
    [[.rep (fun c => c = '_') 3 none, wsStar, .endA]],
    [[.rep (fun c => c = '-') 3 none, wsStar, .endA]],
    [litS "best" ++ [wsStar] ++ litS "regards" ++ [optC ',', wsStar, .endA],
     litS "best" ++ [wsStar] ++ litS "wishes" ++ [optC ',', wsStar, .endA],
     litS "best" ++ [wsStar, optC ',', wsStar, .endA]],
    [litS "kind" ++ [wsPlus] ++ litS "regard" ++ [optC 's', optC ',', wsStar, .endA]],
    [litS "regard" ++ [optC 's', optC ',', wsStar, .endA]],
    [litS "thank" ++ [optC 's', optC ',', wsStar, .endA]],
    [litS "thank" ++ [wsPlus] ++ litS "you" ++ [optC ',', wsStar, .endA]],
    [litS "cheer" ++ [optC 's', optC ',', wsStar, .endA]],
    [litS "sincerely" ++ [optC ',', wsStar, .endA]],
    [litS "warm" ++ [wsPlus] ++ litS "regard" ++ [optC 's', optC ',', wsStar, .endA]],
    [litS "all" ++ [wsPlus] ++ litS "the" ++ [wsPlus] ++ litS "best" ++ [optC ',', wsStar, .endA]],
    [litS "sent" ++ [wsPlus] ++ litS "from" ++ [wsPlus] ++ litS "my" ++ [wsPlus]] ]

/-- `PHONE_PATTERNS`: US, international, parenthesised area code, dashed. -/
def PHONE_PATTERNS : List (List RAtom) :=
  [ [optC '+', optC '1', sepOpt, optC '(', digN 3, optC ')', sepOpt, digN 3, sepOpt, digN 4],
    [litA '+', digR 1 3, sepOpt, digR 1 4, sepOpt, digR 1 4, sepOpt, digR 1 9],
    [litA '(', digN 3, litA ')', wsStar, digN 3, sepOpt, digN 4],
    [digN 3, sepOne, digN 3, sepOne, digN 4] ]

/-- `EMAIL_PATTERN`: `[a-zA-Z0-9._%+-]+@[a-zA-Z0-9.-]+\.[a-zA-Z]{2,}`. -/
def EMAIL_PATTERN_ATOMS : List RAtom :=
  [.rep (fun c => c.isAlphanum ∨ c = '.' ∨ c = '_' ∨ c = '%' ∨ c = '+' ∨ c = '-') 1 none,
   litA '@',
   .rep (fun c => c.isAlphanum ∨ c = '.' ∨ c = '-') 1 none,
   litA '.',
   .rep Char.isAlpha 2 none]

def TITLE_KEYWORDS : List (List Char) :=
  [ls "manager", ls "director", ls "coordinator", ls "specialist", ls "executive",
   ls "officer", ls "president", ls "vp", ls "vice president", ls "head of",
   ls "lead", ls "senior", ls "junior", ls "associate", ls "assistant",
   ls "pr ", ls "public relations", ls "communications", ls "media relations",
   ls "press", ls "marketing", ls "brand", ls "account", ls "consultant",
   ls "strategist", ls "analyst", ls "editor", ls "writer", ls "publicist",
   ls "founder", ls "ceo", ls "coo", ls "cmo", ls "chief"]

def AGENCY_INDICATORS : List (List Char) :=
  [ls "pr", ls "public relations", ls "communications", ls "agency",
   ls "consulting", ls "media", ls "marketing", ls "group", ls "partners",
   ls "associates"]

/-- `COMPANY_SUFFIXES` (applied with `re.IGNORECASE`, so lower-cased here). -/
def COMPANY_SUFFIXES : List (List RAtom) :=
  [ [.wordB] ++ litS "inc" ++ [optC '.', .endA],
    [.wordB] ++ litS "llc" ++ [optC '.', .endA],
    [.wordB] ++ litS "ltd" ++ [optC '.', .endA],
    [.wordB] ++ litS "limited" ++ [.endA],
    [.wordB] ++ litS "corp" ++ [optC '.', .endA],
    [.wordB] ++ litS "corporation" ++ [.endA],
    [.wordB] ++ litS "gmbh" ++ [.endA],
    [.wordB] ++ litS "plc" ++ [.endA],
    [.wordB] ++ litS "agency" ++ [.endA],
    [.wordB] ++ litS "group" ++ [.endA],
    [.wordB] ++ litS "holding" ++ [optC 's', .endA],
    [.wordB] ++ litS "enterprise" ++ [optC 's', .endA],
    [.wordB] ++ litS "company" ++ [.endA],
    [.wordB] ++ litS "co" ++ [optC '.', .endA],
    [.wordB, litA 'l', optC '.', litA 'l', optC '.', litA 'c', optC '.', .endA],
    [.wordB] ++ litS "fze" ++ [.endA],
    [.wordB] ++ litS "fzc" ++ [.endA],
    [.wordB] ++ litS "fz-llc" ++ [.endA],
    [.wordB, litA 'w', optC '.', litA 'l', optC '.', litA 'l', optC '.', .endA] ]

/-- `TITLE_SUFFIXES` (no word boundary in the source; `re.IGNORECASE`). -/
def TITLE_SUFFIXES : List (List RAtom) :=
  [ litS "manager" ++ [.endA],
    litS "director" ++ [.endA],
    litS "executive" ++ [.endA],
    litS "consultant" ++ [.endA],
    litS "specialist" ++ [.endA],
    litS "coordinator" ++ [.endA],
    litS "lead" ++ [.endA],
    litS "officer" ++ [.endA],
    litS "president" ++ [.endA],
    litS "analyst" ++ [.endA],
    litS "strategist" ++ [.endA],
    litS "advisor" ++ [.endA],
    litS "administrator" ++ [.endA],
    litS "supervisor" ++ [.endA],
    litS "representative" ++ [.endA] ]

def FALSE_POSITIVE_PHRASES : List (List Char) :=
  [ls "unsubscribe", ls "click here", ls "click below", ls "view in browser",
   ls "view online", ls "privacy policy", ls "terms of service",
   ls "terms and conditions", ls "manage preferences", ls "update preferences",
   ls "opt out", ls "opt-out", ls "forward to a friend", ls "sent from my",
   ls "powered by", ls "this email was sent", ls "to stop receiving",
   ls "copyright", ls "all rights reserved", ls "if you no longer",
   ls "log in", ls "login", ls "sign in", ls "sign up", ls "register",
   ls "download", ls "read more", ls "learn more", ls "follow us",
   ls "connect with us", ls "visit our", ls "disclaimer", ls "confidential",
   ls "this message", ls "intended recipient", ls "legal notice"]

def INVALID_COMPANY_NAMES : List (List Char) :=
  [ls "the team", ls "team", ls "unsubscribe", ls "subscribe", ls "share",
   ls "forward", ls "reply", ls "contact", ls "email", ls "phone",
   ls "mobile", ls "office", ls "direct", ls "website", ls "address",
   ls "price", ls "notes to", ls "about"]

/-- `INVALID_TITLE_PATTERNS` (searched in the lower-cased line). -/
def INVALID_TITLE_PATTERNS : List (List RAtom) :=
  [ litS "how to", litS "step-by-step", litS "guide", litS "tips for",
    litS "ways to", litS "things you", litS "what you need",
    litS "why you should", litS "introducing", litS "announcing",
    litS "breaking:", litS "exclusive:", litS "new:", litS "notes to editors",
    litS "about the", litS "about us", litS "for immediate",
    litS "press release", litS "©",
    [litA '<', .rep isLowerAz 1 (some 1)],
    [litA '&', .rep isLowerAz 1 none, litA ';'] ]

/-- `\b20\d{2}\b` (a year token such as 2024). -/
def YEAR_PATTERN : List RAtom := [.wordB, litA '2', litA '0', digN 2, .wordB]

def anyFalsePositive (lower : List Char) : Bool :=
  FALSE_POSITIVE_PHRASES.any (fun fp => containsSub lower fp)

/-- The class kept by `re.sub(r"[^\d+\-().\s]", "", phone)`. -/
def phoneKeepChar (c : Char) : Bool :=
  c.isDigit ∨ c = '+' ∨ c = '-' ∨ c = '(' ∨ c = ')' ∨ c = '.' ∨ isPyWs c

/-- `has_formatting` in `_extract_phone`. -/
def hasFormatting (phone : List Char) : Bool :=
  phone.contains '+' ∨ phone.contains '-' ∨ phone.contains '(' ∨
    phone.contains '.' ∨ (pyStrip phone).contains ' '

/-- `digits_only` in `_extract_phone`. -/
def phoneDigits (phone : List Char) : List Char := phone.filter Char.isDigit

/-- One pattern of the inner loop of `_extract_phone`: search the line, clean
the match, and return it only if it validates. -/
def tryPhonePattern (line : List Char) (pat : List RAtom) : Option (List Char) :=
  match reSearch pat line with
  | none => none
  | some m =>
    let phone := pyStrip (m.filter phoneKeepChar)
    let digitsOnly := phoneDigits phone
    if hasFormatting phone ∧ 7 ≤ digitsOnly.length ∧ digitsOnly.length ≤ 15 then
      some phone
    else none

/-- The per-line body of `_extract_phone`. -/
def phoneLine (line : List Char) : Option (List Char) :=
  let lower := lowerL line
  if anyFalsePositive lower then none
  else if containsSub lower (ls "http") ∨ containsSub lower (ls "www.") then none
  else PHONE_PATTERNS.findSome? (tryPhonePattern line)

def _extract_phone (text : List Char) : List Char :=
  ((splitOnChar '\n' text).findSome? phoneLine).getD []

/-- `[|\-•]` bullet/pipe decoration class. -/
def isDeco (c : Char) : Bool := c = '|' ∨ c = '-' ∨ c = '•'

/-- `re.sub(r"^[|\-•]\s*", "", line)` then `re.sub(r"\s*[|\-•]\s*$", "", ...)`
then `strip()` — the title/company cleanup. -/
def cleanDeco (line : List Char) : List Char :=
  pyStrip (reSubFirst [wsStar, .rep isDeco 1 (some 1), wsStar, .endA] []
    (reSubAtStart [.rep isDeco 1 (some 1), wsStar] line))

/-- The keyword-loop tail of `_extract_title`.  The loop body is identical for
every keyword (the computed `title` and every validation check are independent
of which keyword matched, and a failed check `continue`s to the next keyword
with the same outcome), so the loop is equivalent to: some keyword occurs and
the validations pass. -/
def titleKeywordStep (line lower : List Char) : Option (List Char) :=
  if TITLE_KEYWORDS.any (fun kw => containsSub lower kw) then
    let title := cleanDeco line
    let words := pySplitWs title
    if words.length < 2 then none
    else if 8 < words.length then none
    else if anyFalsePositive (lowerL title) then none
    else if title.getLast? = some ':' ∨ title.getLast? = some '?' ∨
        title.getLast? = some '!' then none
    else some title
  else none

/-- The per-line body of `_extract_title`. -/
def titleLine (raw : List Char) : Option (List Char) :=
  let line := pyStrip raw
  if line.isEmpty then none
  else
    let lower := lowerL line
    if anyFalsePositive lower then none
    else if INVALID_TITLE_PATTERNS.any (fun p => reTest p lower) then none
    else if containsSub lower (ls "http") ∨ containsSub lower (ls "www.") then none
    else if line.contains '<' ∧ line.contains '>' then none
    else if 60 < line.length then none
    else if line.length < 5 then none
    else if COMPANY_SUFFIXES.any (fun p => reTest p lower) then none
    else if TITLE_SUFFIXES.any (fun p => reTest p lower) ∧
        5 ≤ (cleanDeco line).length then some (cleanDeco line)
    else titleKeywordStep line lower

def _extract_title (signature : List Char) : List Char :=
  ((splitOnChar '\n' signature).findSome? titleLine).getD []

/-- The agency-indicator loop of `_extract_company` (indicator-dependent:
an ambiguity veto for media/communications/marketing skips to the next
indicator). -/
def agencyStep (line lower : List Char) : Option (List Char) :=
  AGENCY_INDICATORS.findSome? fun ind =>
    if containsSub lower ind then
      let company := cleanDeco line
      let titleMatches :=
        TITLE_KEYWORDS.countP (fun kw => containsSub (lowerL company) kw)
      if 0 < titleMatches ∧
          (ind = ls "media" ∨ ind = ls "communications" ∨ ind = ls "marketing")
      then none
      else if 3 ≤ company.length ∧ company.length < 50 then some company
      else none
    else none

/-- The per-line body of `_extract_company`, with the one check that depends
on the contact name — `contact_name_lower and line.lower() == contact_name_lower`
— already evaluated to the Bool `nameIsLine`. -/
def companyLineAux (nameIsLine : Bool) (raw : List Char) : Option (List Char) :=
  let line := pyStrip raw
  if line.isEmpty ∨ line.length < 3 then none
  else if nameIsLine then none
  else if reTest EMAIL_PATTERN_ATOMS line then none
  else if PHONE_PATTERNS.any (fun p => reTest p line) then none
  else
    let lower := lowerL line
    if anyFalsePositive lower then none
    else if INVALID_COMPANY_NAMES.any (fun inv =>
        lower = inv ∨ (inv ++ [' ']).isPrefixOf lower ∨
          lower.getLast? = some ':') then none
    else if containsSub lower (ls "http") ∨ containsSub lower (ls "www.") then none
    else if line.contains '<' ∧ line.contains '>' then none
    else if line.contains '©' ∨ line.contains '&' then none
    else if reTest YEAR_PATTERN line then none
    else if 50 < line.length then none
    else if COMPANY_SUFFIXES.any (fun p => reTest p lower) ∧
        3 ≤ (cleanDeco line).length then some (cleanDeco line)
    else if TITLE_SUFFIXES.any (fun p => reTest p lower) then none
    else agencyStep line lower

/-- The per-line body of `_extract_company` (`nameLower` is the already
lower-cased display name, `""` when absent). -/
def companyLine (nameLower : List Char) (raw : List Char) : Option (List Char) :=
  companyLineAux ((¬ nameLower.isEmpty) ∧ lowerL (pyStrip raw) = nameLower) raw

def _extract_company (signature : List Char) (contactName : List Char) : List Char :=
  ((splitOnChar '\n' signature).findSome? (companyLine (lowerL contactName))).getD []

/-- The substring tokens filtering "common non-personal emails". -/
def GENERIC_EMAIL_TOKENS : List (List Char) :=
  [ls "noreply", ls "no-reply", ls "support@", ls "info@", ls "hello@", ls "contact@"]

/-- The accumulator loop of `_extract_emails`. -/
def collectEmails (primaryLower : List Char) :
    List (List Char) → List (List Char) → List (List Char)
  | additional, [] => additional
  | additional, e :: rest =>
    let el := lowerL e
    if el = primaryLower then collectEmails primaryLower additional rest
    else if GENERIC_EMAIL_TOKENS.any (fun t => containsSub el t) then
      collectEmails primaryLower additional rest
    else if (additional.map lowerL).contains el then
      collectEmails primaryLower additional rest
    else collectEmails primaryLower (additional ++ [e]) rest

def _extract_emails (text primary : List Char) : List (List Char) :=
  collectEmails (lowerL primary) [] (reFindAll EMAIL_PATTERN_ATOMS text)

/-- `re.sub(r'^"(.+)"$', r"\1", name)`: drop surrounding double quotes when
the inside is non-empty and newline-free (`$` may sit before a final
newline, which then survives the substitution). -/
def stripQuotesSub (s : List Char) : List Char :=
  let core := if s.getLast? = some '\n' then s.dropLast else s
  let tail := if s.getLast? = some '\n' then ['\n'] else ([] : List Char)
  match core with
  | '"' :: rest =>
    if rest.getLast? = some '"' ∧ 2 ≤ rest.length ∧
        rest.dropLast.all (fun c => c ≠ '\n') then
      rest.dropLast ++ tail
    else s
  | _ => s

/-- `re.sub("^" ++ prefixLits ++ r"\s*", "", s, flags=re.IGNORECASE)`. -/
def subPrefixCI (p : String) (s : List Char) : List Char :=
  if lowerL (s.take p.data.length) = p.data then
    (s.drop p.data.length).dropWhile isPyWs
  else s

def _clean_name (name : List Char) : List Char :=
  if name.isEmpty then []
  else
    let n1 := reSubFirst
      [wsStar, litA '(', .rep (fun c => c ≠ ')') 1 none, litA ')', wsStar, .endA]
      [] name
    let n2 := reSubFirst
      [wsStar, litA '<', .rep (fun c => c ≠ '>') 1 none, litA '>', wsStar, .endA]
      [] n1
    let n3 := stripQuotesSub n2
    let n4 := subPrefixCI "pr:" n3
    let n5 := subPrefixCI "re:" n4
    pyStrip n5

/-- `_looks_like_signature_start` (the stripped-line argument of the Python
method is unused there; only the next 10 raw lines matter). -/
def looksLikeSignatureStart (remaining : List (List Char)) : Bool :=
  let remText := lowerL (joinSep '\n' (remaining.take 10))
  let hasPhone := PHONE_PATTERNS.any (fun p => reTest p remText)
  let hasEmail := reTest EMAIL_PATTERN_ATOMS remText
  let hasTitle := TITLE_KEYWORDS.any (fun kw => containsSub remText kw)
  hasPhone ∨ (hasEmail ∧ hasTitle)

/-- Does a raw line match one of `SIGNATURE_DELIMITERS` under
`re.match(pattern, line.strip(), re.IGNORECASE)`? -/
def isSignatureDelimiter (raw : List Char) : Bool :=
  let line := lowerL (pyStrip raw)
  SIGNATURE_DELIMITERS.any (fun alts => alts.any (fun pat => reMatchStart pat line))

/-- The fallback scan of `_extract_signature` over the last 15 lines:
first index whose stripped line is non-empty, unquoted, and whose window
looks like a signature start. -/
def windowScanStart (lines : List (List Char)) : Option Nat :=
  -- `range(max(0, len(lines) - 15), len(lines))`
  (List.range' (lines.length - 15) (lines.length - (lines.length - 15))).find? fun i =>
    let line := pyStrip (lines.getD i [])
    ¬ line.isEmpty ∧ line.head? ≠ some '>' ∧ looksLikeSignatureStart (lines.drop i)

def _extract_signature (body : List Char) : List Char :=
  let lines := splitOnChar '\n' body
  match lines.findIdx? isSignatureDelimiter with
  | some i => joinSep '\n' (lines.drop i)
  | none =>
    match windowScanStart lines with
    | some i => joinSep '\n' (lines.drop i)
    | none => joinSep '\n' (lines.drop (lines.length - 10))

end ContactExtractor

/-! ## CountryDetector (src/country_detector.py) -/

namespace CountryDetector

structure CountryResult where
  country : List Char
  country_code : List Char
  source : List Char
deriving DecidableEq

/-- `PHONE_CODES`, in source (dict-insertion) order: (code, country, ISO). -/
def PHONE_CODES : List (List Char × List Char × List Char) :=
  [ (ls "+971", ls "United Arab Emirates", ls "AE"),
    (ls "+966", ls "Saudi Arabia", ls "SA"),
    (ls "+974", ls "Qatar", ls "QA"),
    (ls "+965", ls "Kuwait", ls "KW"),
    (ls "+973", ls "Bahrain", ls "BH"),
    (ls "+968", ls "Oman", ls "OM"),
    (ls "+962", ls "Jordan", ls "JO"),
    (ls "+961", ls "Lebanon", ls "LB"),
    (ls "+20", ls "Egypt", ls "EG"),
    (ls "+212", ls "Morocco", ls "MA"),
    (ls "+216", ls "Tunisia", ls "TN"),
    (ls "+213", ls "Algeria", ls "DZ"),
    (ls "+964", ls "Iraq", ls "IQ"),
    (ls "+963", ls "Syria", ls "SY"),
    (ls "+970", ls "Palestine", ls "PS"),
    (ls "+972", ls "Israel", ls "IL"),
    (ls "+98", ls "Iran", ls "IR"),
    (ls "+1", ls "United States", ls "US"),
    (ls "+44", ls "United Kingdom", ls "GB"),
    (ls "+33", ls "France", ls "FR"),
    (ls "+49", ls "Germany", ls "DE"),
    (ls "+39", ls "Italy", ls "IT"),
    (ls "+34", ls "Spain", ls "ES"),
    (ls "+31", ls "Netherlands", ls "NL"),
    (ls "+32", ls "Belgium", ls "BE"),
    (ls "+41", ls "Switzerland", ls "CH"),
    (ls "+43", ls "Austria", ls "AT"),
    (ls "+46", ls "Sweden", ls "SE"),
    (ls "+47", ls "Norway", ls "NO"),
    (ls "+45", ls "Denmark", ls "DK"),
    (ls "+358", ls "Finland", ls "FI"),
    (ls "+48", ls "Poland", ls "PL"),
    (ls "+351", ls "Portugal", ls "PT"),
    (ls "+353", ls "Ireland", ls "IE"),
    (ls "+30", ls "Greece", ls "GR"),
    (ls "+7", ls "Russia", ls "RU"),
    (ls "+380", ls "Ukraine", ls "UA"),
    (ls "+90", ls "Turkey", ls "TR"),
    (ls "+91", ls "India", ls "IN"),
    (ls "+86", ls "China", ls "CN"),
    (ls "+852", ls "Hong Kong", ls "HK"),
    (ls "+853", ls "Macau", ls "MO"),
    (ls "+886", ls "Taiwan", ls "TW"),
    (ls "+81", ls "Japan", ls "JP"),
    (ls "+82", ls "South Korea", ls "KR"),
    (ls "+65", ls "Singapore", ls "SG"),
    (ls "+60", ls "Malaysia", ls "MY"),
    (ls "+66", ls "Thailand", ls "TH"),
    (ls "+62", ls "Indonesia", ls "ID"),
    (ls "+63", ls "Philippines", ls "PH"),
    (ls "+84", ls "Vietnam", ls "VN"),
    (ls "+61", ls "Australia", ls "AU"),
    (ls "+64", ls "New Zealand", ls "NZ"),
    (ls "+52", ls "Mexico", ls "MX"),
    (ls "+55", ls "Brazil", ls "BR"),
    (ls "+54", ls "Argentina", ls "AR"),
    (ls "+56", ls "Chile", ls "CL"),
    (ls "+57", ls "Colombia", ls "CO"),
    (ls "+51", ls "Peru", ls "PE"),
    (ls "+27", ls "South Africa", ls "ZA"),
    (ls "+234", ls "Nigeria", ls "NG"),
    (ls "+254", ls "Kenya", ls "KE"),
    (ls "+233", ls "Ghana", ls "GH") ]

/-- `TLD_COUNTRIES`, in source order: (tld, country, ISO). -/
def TLD_COUNTRIES : List (List Char × List Char × List Char) :=
  [ (ls ".ae", ls "United Arab Emirates", ls "AE"),
    (ls ".sa", ls "Saudi Arabia", ls "SA"),
    (ls ".qa", ls "Qatar", ls "QA"),
    (ls ".kw", ls "Kuwait", ls "KW"),
    (ls ".bh", ls "Bahrain", ls "BH"),
    (ls ".om", ls "Oman", ls "OM"),
    (ls ".jo", ls "Jordan", ls "JO"),
    (ls ".lb", ls "Lebanon", ls "LB"),
    (ls ".eg", ls "Egypt", ls "EG"),
    (ls ".ma", ls "Morocco", ls "MA"),
    (ls ".tn", ls "Tunisia", ls "TN"),
    (ls ".dz", ls "Algeria", ls "DZ"),
    (ls ".iq", ls "Iraq", ls "IQ"),
    (ls ".sy", ls "Syria", ls "SY"),
    (ls ".ps", ls "Palestine", ls "PS"),
    (ls ".il", ls "Israel", ls "IL"),
    (ls ".ir", ls "Iran", ls "IR"),
    (ls ".uk", ls "United Kingdom", ls "GB"),
    (ls ".co.uk", ls "United Kingdom", ls "GB"),
    (ls ".fr", ls "France", ls "FR"),
    (ls ".de", ls "Germany", ls "DE"),
    (ls ".it", ls "Italy", ls "IT"),
    (ls ".es", ls "Spain", ls "ES"),
    (ls ".nl", ls "Netherlands", ls "NL"),
    (ls ".be", ls "Belgium", ls "BE"),
    (ls ".ch", ls "Switzerland", ls "CH"),
    (ls ".at", ls "Austria", ls "AT"),
    (ls ".se", ls "Sweden", ls "SE"),
    (ls ".no", ls "Norway", ls "NO"),
    (ls ".dk", ls "Denmark", ls "DK"),
    (ls ".fi", ls "Finland", ls "FI"),
    (ls ".pl", ls "Poland", ls "PL"),
    (ls ".pt", ls "Portugal", ls "PT"),
    (ls ".ie", ls "Ireland", ls "IE"),
    (ls ".gr", ls "Greece", ls "GR"),
    (ls ".ru", ls "Russia", ls "RU"),
    (ls ".ua", ls "Ukraine", ls "UA"),
    (ls ".tr", ls "Turkey", ls "TR"),
    (ls ".in", ls "India", ls "IN"),
    (ls ".cn", ls "China", ls "CN"),
    (ls ".hk", ls "Hong Kong", ls "HK"),
    (ls ".mo", ls "Macau", ls "MO"),
    (ls ".tw", ls "Taiwan", ls "TW"),
    (ls ".jp", ls "Japan", ls "JP"),
    (ls ".kr", ls "South Korea", ls "KR"),
    (ls ".sg", ls "Singapore", ls "SG"),
    (ls ".my", ls "Malaysia", ls "MY"),
    (ls ".th", ls "Thailand", ls "TH"),
    (ls ".id", ls "Indonesia", ls "ID"),
    (ls ".ph", ls "Philippines", ls "PH"),
    (ls ".vn", ls "Vietnam", ls "VN"),
    (ls ".au", ls "Australia", ls "AU"),
    (ls ".nz", ls "New Zealand", ls "NZ"),
    (ls ".us", ls "United States", ls "US"),
    (ls ".ca", ls "Canada", ls "CA"),
    (ls ".mx", ls "Mexico", ls "MX"),
    (ls ".br", ls "Brazil", ls "BR"),
    (ls ".ar", ls "Argentina", ls "AR"),
    (ls ".cl", ls "Chile", ls "CL"),
    (ls ".co", ls "Colombia", ls "CO"),
    (ls ".pe", ls "Peru", ls "PE"),
    (ls ".za", ls "South Africa", ls "ZA"),
    (ls ".ng", ls "Nigeria", ls "NG"),
    (ls ".ke", ls "Kenya", ls "KE"),
    (ls ".gh", ls "Ghana", ls "GH") ]

/-- `LOCATION_PATTERNS`, in source order (searched case-insensitively, so the
literals are lower-cased and applied to the lower-cased signature). -/
def LOCATION_PATTERNS : List (List RAtom × List Char × List Char) :=
  [ ([.wordB] ++ litS "dubai" ++ [.wordB], ls "United Arab Emirates", ls "AE"),
    ([.wordB] ++ litS "abu" ++ [wsStar] ++ litS "dhabi" ++ [.wordB],
      ls "United Arab Emirates", ls "AE"),
    ([.wordB] ++ litS "sharjah" ++ [.wordB], ls "United Arab Emirates", ls "AE"),
    ([.wordB] ++ litS "ajman" ++ [.wordB], ls "United Arab Emirates", ls "AE"),
    ([.wordB, litA 'u', optC '.', litA 'a', optC '.', litA 'e', optC '.', .wordB],
      ls "United Arab Emirates", ls "AE"),
    ([.wordB] ++ litS "riyadh" ++ [.wordB], ls "Saudi Arabia", ls "SA"),
    ([.wordB] ++ litS "jeddah" ++ [.wordB], ls "Saudi Arabia", ls "SA"),
    ([.wordB] ++ litS "dammam" ++ [.wordB], ls "Saudi Arabia", ls "SA"),
    ([.wordB] ++ litS "ksa" ++ [.wordB], ls "Saudi Arabia", ls "SA"),
    ([.wordB] ++ litS "doha" ++ [.wordB], ls "Qatar", ls "QA"),
    ([.wordB] ++ litS "kuwait" ++ [wsStar] ++ litS "city" ++ [.wordB],
      ls "Kuwait", ls "KW"),
    ([.wordB] ++ litS "manama" ++ [.wordB], ls "Bahrain", ls "BH"),
    ([.wordB] ++ litS "muscat" ++ [.wordB], ls "Oman", ls "OM"),
    ([.wordB] ++ litS "amman" ++ [.wordB], ls "Jordan", ls "JO"),
    ([.wordB] ++ litS "beirut" ++ [.wordB], ls "Lebanon", ls "LB"),
    ([.wordB] ++ litS "cairo" ++ [.wordB], ls "Egypt", ls "EG"),
    ([.wordB] ++ litS "london" ++ [.wordB], ls "United Kingdom", ls "GB"),
    ([.wordB] ++ litS "new" ++ [wsStar] ++ litS "york" ++ [.wordB],
      ls "United States", ls "US"),
    ([.wordB] ++ litS "los" ++ [wsStar] ++ litS "angeles" ++ [.wordB],
      ls "United States", ls "US"),
    ([.wordB] ++ litS "paris" ++ [.wordB], ls "France", ls "FR"),
    ([.wordB] ++ litS "berlin" ++ [.wordB], ls "Germany", ls "DE"),
    ([.wordB] ++ litS "milan" ++ [.wordB], ls "Italy", ls "IT"),
    ([.wordB] ++ litS "madrid" ++ [.wordB], ls "Spain", ls "ES"),
    ([.wordB] ++ litS "amsterdam" ++ [.wordB], ls "Netherlands", ls "NL"),
    ([.wordB] ++ litS "singapore" ++ [.wordB], ls "Singapore", ls "SG"),
    ([.wordB] ++ litS "hong" ++ [wsStar] ++ litS "kong" ++ [.wordB],
      ls "Hong Kong", ls "HK"),
    ([.wordB] ++ litS "tokyo" ++ [.wordB], ls "Japan", ls "JP"),
    ([.wordB] ++ litS "seoul" ++ [.wordB], ls "South Korea", ls "KR"),
    ([.wordB] ++ litS "sydney" ++ [.wordB], ls "Australia", ls "AU"),
    ([.wordB] ++ litS "melbourne" ++ [.wordB], ls "Australia", ls "AU"),
    ([.wordB] ++ litS "mumbai" ++ [.wordB], ls "India", ls "IN"),
    ([.wordB] ++ litS "new" ++ [wsStar] ++ litS "delhi" ++ [.wordB],
      ls "India", ls "IN") ]

/-- Stable insertion of an entry into a list sorted by key length, descending:
the entry goes after every earlier entry whose key is at least as long.  This
is `sorted(keys, key=len, reverse=True)` (Python `sorted` is stable). -/
def insertLenDesc (x : List Char × List Char × List Char) :
    List (List Char × List Char × List Char) →
    List (List Char × List Char × List Char)
  | [] => [x]
  | y :: ys => if y.1.length < x.1.length then x :: y :: ys else y :: insertLenDesc x ys

def sortLenDesc (l : List (List Char × List Char × List Char)) :
    List (List Char × List Char × List Char) :=
  l.foldl (fun acc x => insertLenDesc x acc) []

/-- `re.sub(r"[\s\-().]+", "", phone)`. -/
def normalizePhone (phone : List Char) : List Char :=
  phone.filter (fun c => ¬ (isPyWs c ∨ c = '-' ∨ c = '(' ∨ c = ')' ∨ c = '.'))

def detect_from_phone (phone : List Char) : Option CountryResult :=
  if phone.isEmpty then none
  else
    let normalized := normalizePhone phone
    let withPlus : Option (List Char) :=
      if (ls "+").isPrefixOf normalized then some normalized
      else if (ls "00").isPrefixOf normalized then some ('+' :: normalized.drop 2)
      else none
    match withPlus with
    | none => none
    | some n =>
      match (sortLenDesc PHONE_CODES).find? (fun e => e.1.isPrefixOf n) with
      | some e => some ⟨e.2.1, e.2.2, ls "phone_code"⟩
      | none => none

def detect_from_email_tld (email : List Char) : Option CountryResult :=
  if email.isEmpty ∨ ¬ email.contains '@' then none
  else
    let domain := lowerL ((splitOnChar '@' email).getD 1 [])
    match (sortLenDesc TLD_COUNTRIES).find? (fun e => e.1.isSuffixOf domain) with
    | some e => some ⟨e.2.1, e.2.2, ls "tld"⟩
    | none => none

def detect_from_signature (signature : List Char) : Option CountryResult :=
  if signature.isEmpty then none
  else
    let textLower := lowerL signature
    match LOCATION_PATTERNS.findSome?
        (fun e => if reTest e.1 textLower then some e.2 else none) with
    | some ci => some ⟨ci.1, ci.2, ls "signature"⟩
    | none => none

/-- `detect(phone, email, signature)`: phone code first, then signature
location patterns, then email TLD; first hit wins. -/
def detect (phone email signature : List Char) : Option CountryResult :=
  match (if ¬ phone.isEmpty then detect_from_phone phone else none) with
  | some r => some r
  | none =>
    match (if ¬ signature.isEmpty then detect_from_signature signature else none) with
    | some r => some r
    | none =>
      if ¬ email.isEmpty then detect_from_email_tld email else none

end CountryDetector

/-! ## ContactExtractor orchestrator (`extract_from_email`) -/

namespace ContactExtractor

/-- The fields of the input dict that `extract_from_email` reads. -/
structure EmailData where
  from_name : List Char := []
  from_email : List Char := []
  body : List Char := []

structure ExtractedContact where
  name : List Char := []
  email : List Char := []
  company : List Char := []
  title : List Char := []
  phone : List Char := []
  additional_emails : List (List Char) := []
  country : List Char := []
  country_code : List Char := []
  country_source : List Char := []
  company_source : List Char := []
deriving DecidableEq

def extract_from_email (d : EmailData) : ExtractedContact :=
  let signature := if ¬ d.body.isEmpty then _extract_signature d.body else []
  let c0 : ExtractedContact := { name := d.from_name, email := d.from_email }
  let c1 :=
    if ¬ d.body.isEmpty ∧ ¬ signature.isEmpty then
      let company := _extract_company signature c0.name
      { c0 with
        phone := _extract_phone signature
        title := _extract_title signature
        company := company
        company_source := if ¬ company.isEmpty then ls "signature" else []
        additional_emails := _extract_emails signature c0.email }
    else c0
  let c2 :=
    match CountryDetector.detect c1.phone c1.email signature with
    | some r =>
      { c1 with country := r.country, country_code := r.country_code,
                country_source := r.source }
    | none => c1
  { c2 with name := _clean_name c2.name }

end ContactExtractor

/-! ## CompanyResolver (src/company_resolver.py) -/

namespace CompanyResolver

/-- `KNOWN_DOMAINS`, in source order. -/
def KNOWN_DOMAINS : List (List Char × List Char) :=
  [ (ls "edelman.com", ls "Edelman"),
    (ls "bursonglobal.com", ls "Burson Global"),
    (ls "mena.bursonglobal.com", ls "Burson Global MENA"),
    (ls "ae.bursonglobal.com", ls "Burson Global UAE"),
    (ls "webershandwick.com", ls "Weber Shandwick"),
    (ls "golin.com", ls "Golin"),
    (ls "golin-mena.com", ls "Golin MENA"),
    (ls "fleishman.com", ls "FleishmanHillard"),
    (ls "fleishmanhillard.com", ls "FleishmanHillard"),
    (ls "hillandknowlton.com", ls "Hill & Knowlton"),
    (ls "hkstrategies.com", ls "H+K Strategies"),
    (ls "ketchum.com", ls "Ketchum"),
    (ls "mslgroup.com", ls "MSL Group"),
    (ls "ogilvy.com", ls "Ogilvy"),
    (ls "ogilvypr.com", ls "Ogilvy PR"),
    (ls "bcw-global.com", ls "BCW Global"),
    (ls "cohnwolfe.com", ls "Cohn & Wolfe"),
    (ls "prweek.com", ls "PRWeek"),
    (ls "teamlewis.com", ls "TEAM LEWIS"),
    (ls "media.teamlewis.com", ls "TEAM LEWIS"),
    (ls "currentglobal.com", ls "Current Global"),
    (ls "redhavas.com", ls "Red Havas"),
    (ls "havas.com", ls "Havas"),
    (ls "havaspr.com", ls "Havas PR"),
    (ls "ruderfinninc.com", ls "Ruder Finn"),
    (ls "ruderfinn.com", ls "Ruder Finn"),
    (ls "icrinc.com", ls "ICR"),
    (ls "sardverb.com", ls "Sard Verbinnen"),
    (ls "fticonsulting.com", ls "FTI Consulting"),
    (ls "brunswickgroup.com", ls "Brunswick Group"),
    (ls "finsbury.com", ls "Finsbury"),
    (ls "prosek.com", ls "Prosek Partners"),
    (ls "sloanecompany.com", ls "Sloane & Company"),
    (ls "joelefrank.com", ls "Joele Frank"),
    (ls "teneo.com", ls "Teneo"),
    (ls "publicisgroupe.com", ls "Publicis Groupe"),
    (ls "mccann.com", ls "McCann"),
    (ls "wpp.com", ls "WPP"),
    (ls "omnicomgroup.com", ls "Omnicom Group"),
    (ls "ipghealth.com", ls "IPG Health"),
    (ls "interpublic.com", ls "Interpublic Group"),
    (ls "dentsu.com", ls "Dentsu"),
    (ls "brazenmena.com", ls "Brazen MENA"),
    (ls "gambit.ae", ls "Gambit Communications"),
    (ls "jspr.ae", ls "JS PR"),
    (ls "activedmc.com", ls "Active DMC"),
    (ls "matrixdubai.com", ls "Matrix PR"),
    (ls "matrixpr.ae", ls "Matrix PR"),
    (ls "actionprgroup.com", ls "Action PR Group"),
    (ls "actionglobalcomms.com", ls "Action Global Communications"),
    (ls "fourpr.com", ls "Four Communications"),
    (ls "fourcommunications.com", ls "Four Communications"),
    (ls "aaborchid.com", ls "Orchid Communications"),
    (ls "sevenme.com", ls "Seven Media"),
    (ls "sevenmedia.ae", ls "Seven Media"),
    (ls "asaborini.com", ls "Asda'a BCW"),
    (ls "asdaa-bcw.com", ls "Asda'a BCW"),
    (ls "prochoicecomms.com", ls "ProChoice Communications"),
    (ls "therocketscience.com", ls "Rocket Science"),
    (ls "tishcomms.com", ls "TISH Communications"),
    (ls "traccs.net", ls "TRACCS"),
    (ls "w7worldwide.com", ls "W7Worldwide"),
    (ls "watermelon.ae", ls "Watermelon Communications"),
    (ls "crestadv.com", ls "Crest Communications"),
    (ls "houseofcomms.com", ls "House of Comms"),
    (ls "theqode.com", ls "The Qode"),
    (ls "sherwoodcomms.com", ls "Sherwood Communications"),
    (ls "epressrelease.me", ls "ePressPR"),
    (ls "katchthis.com", ls "Katch Communications"),
    (ls "cisionone.cision.com", ls "Cision"),
    (ls "cision.com", ls "Cision"),
    (ls "google.com", ls "Google"),
    (ls "microsoft.com", ls "Microsoft"),
    (ls "apple.com", ls "Apple"),
    (ls "amazon.com", ls "Amazon"),
    (ls "meta.com", ls "Meta"),
    (ls "facebook.com", ls "Meta"),
    (ls "netflix.com", ls "Netflix"),
    (ls "salesforce.com", ls "Salesforce"),
    (ls "oracle.com", ls "Oracle"),
    (ls "ibm.com", ls "IBM"),
    (ls "intel.com", ls "Intel"),
    (ls "nvidia.com", ls "NVIDIA"),
    (ls "adobe.com", ls "Adobe"),
    (ls "cisco.com", ls "Cisco"),
    (ls "samsung.com", ls "Samsung"),
    (ls "huawei.com", ls "Huawei"),
    (ls "dell.com", ls "Dell"),
    (ls "hp.com", ls "HP"),
    (ls "lenovo.com", ls "Lenovo"),
    (ls "marriott.com", ls "Marriott International"),
    (ls "hilton.com", ls "Hilton"),
    (ls "ihg.com", ls "IHG Hotels & Resorts"),
    (ls "accor.com", ls "Accor"),
    (ls "hyatt.com", ls "Hyatt"),
    (ls "fourseasons.com", ls "Four Seasons"),
    (ls "fairmont.com", ls "Fairmont Hotels"),
    (ls "raffles.com", ls "Raffles Hotels"),
    (ls "ritzcarlton.com", ls "The Ritz-Carlton"),
    (ls "starwoodhotels.com", ls "Starwood Hotels"),
    (ls "emirates.com", ls "Emirates"),
    (ls "etihad.ae", ls "Etihad Airways"),
    (ls "qatarairways.com", ls "Qatar Airways"),
    (ls "saudia.com", ls "Saudia"),
    (ls "flydubai.com", ls "flydubai"),
    (ls "bmw.com", ls "BMW"),
    (ls "mercedes-benz.com", ls "Mercedes-Benz"),
    (ls "audi.com", ls "Audi"),
    (ls "volkswagen.com", ls "Volkswagen"),
    (ls "toyota.com", ls "Toyota"),
    (ls "honda.com", ls "Honda"),
    (ls "nissan.com", ls "Nissan"),
    (ls "ford.com", ls "Ford"),
    (ls "gm.com", ls "General Motors"),
    (ls "tesla.com", ls "Tesla"),
    (ls "porsche.com", ls "Porsche"),
    (ls "ferrari.com", ls "Ferrari"),
    (ls "lamborghini.com", ls "Lamborghini"),
    (ls "bentley.com", ls "Bentley"),
    (ls "rollsroyce.com", ls "Rolls-Royce"),
    (ls "landrover.com", ls "Land Rover"),
    (ls "jaguar.com", ls "Jaguar"),
    (ls "jpmorgan.com", ls "JP Morgan"),
    (ls "goldmansachs.com", ls "Goldman Sachs"),
    (ls "morganstanley.com", ls "Morgan Stanley"),
    (ls "bankofamerica.com", ls "Bank of America"),
    (ls "citi.com", ls "Citi"),
    (ls "citibank.com", ls "Citibank"),
    (ls "hsbc.com", ls "HSBC"),
    (ls "barclays.com", ls "Barclays"),
    (ls "deutschebank.com", ls "Deutsche Bank"),
    (ls "ubs.com", ls "UBS"),
    (ls "creditsuisse.com", ls "Credit Suisse"),
    (ls "visa.com", ls "Visa"),
    (ls "mastercard.com", ls "Mastercard"),
    (ls "americanexpress.com", ls "American Express"),
    (ls "paypal.com", ls "PayPal") ]

/-- `PERSONAL_DOMAINS`. -/
def PERSONAL_DOMAINS : List (List Char) :=
  [ls "gmail.com", ls "yahoo.com", ls "hotmail.com", ls "outlook.com",
   ls "aol.com", ls "icloud.com", ls "me.com", ls "mac.com", ls "live.com",
   ls "msn.com", ls "protonmail.com", ls "zoho.com", ls "yandex.com",
   ls "mail.com", ls "gmx.com", ls "inbox.com"]

/-- `email.split("@")[1].lower()`. -/
def domainOf (email : List Char) : List Char :=
  lowerL ((splitOnChar '@' email).getD 1 [])

/-- `_lookup_known_domain`: exact match, then parent domains
`parts[i:]` for `i` in `range(1, len(parts) - 1)`. -/
def _lookup_known_domain (domain : List Char) : Option (List Char) :=
  match (KNOWN_DOMAINS.find? (fun e => e.1 = domain)).map (fun e => e.2) with
  | some c => some c
  | none =>
    let parts := splitOnChar '.' domain
    (List.range parts.length).findSome? fun i =>
      if 1 ≤ i ∧ i + 1 < parts.length then
        (KNOWN_DOMAINS.find? (fun e => e.1 = joinSep '.' (parts.drop i))).map
          (fun e => e.2)
      else none

/-- `_format_domain_as_company`. -/
def _format_domain_as_company (domain : List Char) : Option (List Char) :=
  let parts := splitOnChar '.' domain
  let companyPart : Option (List Char) :=
    if 3 ≤ parts.length ∧
        (parts.getD (parts.length - 2) [] = ls "co" ∨
         parts.getD (parts.length - 2) [] = ls "com" ∨
         parts.getD (parts.length - 2) [] = ls "org" ∨
         parts.getD (parts.length - 2) [] = ls "net") then
      some (parts.getD (parts.length - 3) [])
    else if 2 ≤ parts.length then some (parts.getD (parts.length - 2) [])
    else none
  match companyPart with
  | none => none
  | some cp =>
    if cp = ls "www" ∨ cp = ls "mail" ∨ cp = ls "email" ∨ cp = ls "smtp" ∨
        cp = ls "imap" ∨ cp = ls "pop" then none
    else
      let formatted := pyTitle (cp.map fun c =>
        if c = '-' ∨ c = '_' then ' ' else c)
      if formatted.length < 2 then none else some formatted

/-- `_fetch_from_website`: the injected website-fetch capability
(`none` models both an absent fetcher and a fetch failure/exception; the
`lru_cache` on the Python method is semantically invisible for a pure
fetcher). -/
def _fetch_from_website (fetcher : Option (List Char → Option (List Char)))
    (domain : List Char) : Option (List Char) :=
  match fetcher with
  | none => none
  | some f => f domain

/-- `resolve(email, try_website)`: returns `(company?, source)`. -/
def resolve (fetcher : Option (List Char → Option (List Char)))
    (email : List Char) (try_website : Bool) :
    Option (List Char) × List Char :=
  if email.isEmpty ∨ ¬ email.contains '@' then (none, [])
  else
    let domain := domainOf email
    if PERSONAL_DOMAINS.contains domain then (none, [])
    else
      match _lookup_known_domain domain with
      | some c => (some c, ls "known_domain")
      | none =>
        match (if try_website ∧ fetcher.isSome then
            _fetch_from_website fetcher domain else none) with
        | some c => (some c, ls "website")
        | none =>
          match _format_domain_as_company domain with
          | some c => (some c, ls "domain_formatted")
          | none => (none, [])

/-- `get_second_level_domain(email)`. -/
def get_second_level_domain (email : List Char) : List Char :=
  if email.isEmpty ∨ ¬ email.contains '@' then []
  else
    let domain := domainOf email
    let parts := splitOnChar '.' domain
    if parts.length < 2 then domain
    else if 3 ≤ parts.length ∧
        (parts.getD (parts.length - 2) [] = ls "co" ∨
         parts.getD (parts.length - 2) [] = ls "com" ∨
         parts.getD (parts.length - 2) [] = ls "org" ∨
         parts.getD (parts.length - 2) [] = ls "net" ∨
         parts.getD (parts.length - 2) [] = ls "gov" ∨
         parts.getD (parts.length - 2) [] = ls "edu" ∨
         parts.getD (parts.length - 2) [] = ls "ac") then
      joinSep '.' (parts.drop (parts.length - 3))
    else joinSep '.' (parts.drop (parts.length - 2))

/-- `get_website_url(email)`. -/
def get_website_url (email : List Char) : Option (List Char) :=
  if email.isEmpty ∨ ¬ email.contains '@' then none
  else
    let domain := domainOf email
    if PERSONAL_DOMAINS.contains domain then none
    else
      let sld := get_second_level_domain email
      if sld.isEmpty then none
      else some (ls "https://" ++ sld)

end CompanyResolver

/-! ## Categorizer (src/categorizer.py)

The external AI call of `categorize_batch` is modelled as an oracle giving,
per batch index, either `none` — the call raised, returned no JSON array, or
an item failed to parse (all of which the Python code catches, degrading the
batch) — or `some items`, the per-email objects parsed out of the response
array.  Confidences are numbers (`Rat` here); email records are opaque
(`categorize_batch` reads them only to build the prompt, which is part of the
oracle's input).  The `time.sleep` pacing and the progress callback are
side effects with no influence on the returned list.
-/

namespace Categorizer

/-- One parsed item of the response array: `(name, confidence)` pairs (the
`c.get("confidence", 0.8)` default is applied during parsing, i.e. inside the
oracle) and a brand list. -/
structure CatItem where
  categories : List (String × Rat)
  brands : List String
deriving DecidableEq

/-- `CategorizationResult`: `raw_response` is the parsed item (`none` models
the empty dict `{}` of a degraded result). -/
structure CategorizationResult where
  categories : List (String × Rat)
  brands : List String
  raw_response : Option CatItem
deriving DecidableEq

/-- `CategorizationResult(categories=[], brands=[], raw_response={})`. -/
def emptyResult : CategorizationResult := ⟨[], [], none⟩

def resultOfItem (it : CatItem) : CategorizationResult :=
  ⟨it.categories, it.brands, some it⟩

/-- `categorize_batch(emails)` given the oracle's answer for this batch:
empty input returns `[]` immediately; a failed call degrades every position;
a parsed array is mapped in order and padded with empty results up to the
batch size (the source's `while len(results) < len(emails)` append loop). -/
def categorize_batch (emails : List α) (resp : Option (List CatItem)) :
    List CategorizationResult :=
  if emails.isEmpty then []
  else
    match resp with
    | none => emails.map fun _ => emptyResult
    | some data =>
      let results := data.map resultOfItem
      results ++ List.replicate (emails.length - results.length) emptyResult

/-- Number of iterations of `range(0, total, batch_size)` for positive step. -/
def numBatches (total bs : Nat) : Nat := (total + bs - 1) / bs

/-- `categorize_emails_with_rate_limit(emails, batch_size)`: consecutive
slices `emails[i : i + batch_size]`, one oracle answer per batch, results
concatenated in batch order.  `none` models the `ValueError` Python's
`range` raises on a zero step. -/
def categorize_emails_with_rate_limit (emails : List α) (bs : Nat)
    (oracle : Nat → Option (List CatItem)) :
    Option (List CategorizationResult) :=
  if bs = 0 then none
  else
    some (((List.range (numBatches emails.length bs)).map fun k =>
      categorize_batch ((emails.drop (k * bs)).take bs) (oracle k)).flatten)

end Categorizer

/-! ## Concrete data for claim C1 -/

/-- The 23 opaque email records of the spec's dispatcher scenario. -/
def emails23 : List Unit := List.replicate 23 ()

def itemTech : Categorizer.CatItem := ⟨[("Technology", 1)], ["BrandA"]⟩

def itemTravel : Categorizer.CatItem := ⟨[("Travel", 1)], ["BrandB"]⟩

/-- Oracle for the 23-email scenario: the first batch parses fully, the
second batch's response is malformed, the third parses fully. -/
def oracle23 : Nat → Option (List Categorizer.CatItem)
  | 0 => some (List.replicate 10 itemTech)
  | 1 => none
  | 2 => some (List.replicate 3 itemTravel)
  | _ + 3 => none

/-- Oracle whose response array holds two items for every batch. -/
def oracleTwo : Nat → Option (List Categorizer.CatItem) :=
  fun _ => some [⟨[], []⟩, ⟨[], []⟩]

/-! ## Reference definitions for claim C7

`dedupCI` is case-insensitive first-seen deduplication; `specSecondaryEmails`
states the secondary-email extractor the way the spec words it (drop
addresses whose LOCAL PART matches a generic role account), to be compared
with the source's `_extract_emails` (which drops any address CONTAINING one
of its generic tokens as a substring).
-/

/-- Case-insensitive first-seen deduplication, generalised by the list of
lower-cased keys already seen. -/
def dedupCISeen (seen : List (List Char)) : List (List Char) → List (List Char)
  | [] => []
  | e :: rest =>
    if seen.contains (lowerL e) then dedupCISeen seen rest
    else e :: dedupCISeen (seen ++ [lowerL e]) rest

def dedupCI (l : List (List Char)) : List (List Char) := dedupCISeen [] l

/-- The keep-predicate actually applied by `_extract_emails`: not the primary
address and not containing any generic token as a substring. -/
def keepEmail (primaryLower : List Char) (e : List Char) : Bool :=
  (lowerL e != primaryLower) &&
    !(ContactExtractor.GENERIC_EMAIL_TOKENS.any fun t => containsSub (lowerL e) t)

/-- Stated from the spec (claim C7): the local part of an address. -/
def specLocalPart (e : List Char) : List Char := e.takeWhile (fun c => c ≠ '@')

/-- Stated from the spec (claim C7): the generic role accounts. -/
def specGenericLocals : List (List Char) :=
  [ls "noreply", ls "no-reply", ls "support", ls "info", ls "hello", ls "contact"]

/-- Stated from the spec (claim C7): keep an address unless it is the primary
(case-insensitively) or its local part matches a generic role account. -/
def specKeepEmail (primary e : List Char) : Bool :=
  (lowerL e != lowerL primary) &&
    !(specGenericLocals.contains (specLocalPart (lowerL e)))

/-- Stated from the spec (claim C7): the secondary-email list as the spec
describes it: every email-pattern match of the text, filtered by
`specKeepEmail`, deduplicated case-insensitively in first-seen order. -/
def specSecondaryEmails (text primary : List Char) : List (List Char) :=
  dedupCI ((reFindAll ContactExtractor.EMAIL_PATTERN_ATOMS text).filter
    (specKeepEmail primary))

/-! ## Shared helper lemmas -/

theorem joinSep_nil (c : Char) : joinSep c [] = [] := rfl

theorem joinSep_single (c : Char) (l : List Char) : joinSep c [l] = l := rfl

theorem joinSep_cons2 (c : Char) (a b : List Char) (r : List (List Char)) :
    joinSep c (a :: b :: r) = a ++ c :: joinSep c (b :: r) := rfl

theorem joinSep_cons_ne_nil (c : Char) (a : List Char) (r : List (List Char))
    (h : a ≠ [] ∨ r ≠ []) : joinSep c (a :: r) ≠ [] := by
  cases r with
  | nil =>
    rw [joinSep_single]
    rcases h with h | h
    · exact h
    · exact absurd rfl h
  | cons b rs => rw [joinSep_cons2]; simp

theorem exists_of_findSome?_eq_some {α β} {f : α → Option β} {b : β} :
    ∀ {l : List α}, l.findSome? f = some b → ∃ a ∈ l, f a = some b := by
  intro l h
  induction l with
  | nil => simp [List.findSome?] at h
  | cons x xs ih =>
    rw [List.findSome?_cons] at h
    cases hfx : f x with
    | some y =>
      simp only [hfx] at h
      exact ⟨x, List.mem_cons_self x xs, hfx.trans h⟩
    | none =>
      simp only [hfx] at h
      obtain ⟨a, ha, hfa⟩ := ih h
      exact ⟨a, List.mem_cons_of_mem x ha, hfa⟩

theorem findIdx?_go_eq_of_first {α} (p : α → Bool) (d : α) :
    ∀ (l : List α) (s i : Nat), i < l.length → p (l.getD i d) = true →
      (∀ j, j < i → p (l.getD j d) = false) →
      List.findIdx? p l s = some (s + i) := by
  intro l
  induction l with
  | nil => intro s i hi _ _; simp at hi
  | cons x xs ih =>
    intro s i hi hp hfirst
    rw [List.findIdx?_cons]
    cases i with
    | zero =>
      rw [List.getD_cons_zero] at hp
      simp [hp]
    | succ i =>
      have h0 : p x = false := by
        have := hfirst 0 (Nat.succ_pos i)
        rwa [List.getD_cons_zero] at this
      rw [h0]
      simp only [Bool.false_eq_true, if_false]
      rw [List.getD_cons_succ] at hp
      have := ih (s + 1) i (by simpa using hi) hp
        (fun j hj => by
          have := hfirst (j + 1) (by omega)
          rwa [List.getD_cons_succ] at this)
      rw [this]
      congr 1
      omega

theorem findIdx?_eq_of_first {α} (p : α → Bool) (d : α) (l : List α) (i : Nat)
    (hi : i < l.length) (hp : p (l.getD i d) = true)
    (hfirst : ∀ j, j < i → p (l.getD j d) = false) :
    List.findIdx? p l = some i := by
  have := findIdx?_go_eq_of_first p d l 0 i hi hp hfirst
  simpa using this

theorem findIdx?_go_imp {α} (p : α → Bool) (d : α) :
    ∀ (l : List α) (s i : Nat), List.findIdx? p l s = some i →
      s ≤ i ∧ i - s < l.length ∧ p (l.getD (i - s) d) = true := by
  intro l
  induction l with
  | nil => intro s i h; simp [List.findIdx?_nil] at h
  | cons x xs ih =>
    intro s i h
    rw [List.findIdx?_cons] at h
    by_cases hx : p x = true
    · simp only [hx, if_true, Option.some.injEq] at h
      subst h
      refine ⟨Nat.le_refl s, by simp, ?_⟩
      rw [Nat.sub_self, List.getD_cons_zero]
      exact hx
    · simp only [hx, if_false] at h
      obtain ⟨h1, h2, h3⟩ := ih (s + 1) i h
      refine ⟨by omega, by simp; omega, ?_⟩
      have his : i - s = (i - (s + 1)) + 1 := by omega
      rw [his, List.getD_cons_succ]
      exact h3

theorem findIdx?_imp {α} (p : α → Bool) (d : α) (l : List α) (i : Nat)
    (h : List.findIdx? p l = some i) :
    i < l.length ∧ p (l.getD i d) = true := by
  have := findIdx?_go_imp p d l 0 i h
  simpa using this

theorem splitOnPred_ne_nil (p : Char → Bool) : ∀ l, splitOnPred p l ≠ [] := by
  intro l
  induction l with
  | nil => simp [splitOnPred]
  | cons x xs ih =>
    rw [splitOnPred]
    by_cases hx : p x = true
    · simp [hx]
    · simp only [hx, Bool.false_eq_true, if_false]
      cases h : splitOnPred p xs with
      | nil => exact absurd h ih
      | cons piece rest => simp

theorem joinSep_splitOnPred (p : Char → Bool) (c : Char) (honly : ∀ x, p x = true → x = c) :
    ∀ l, joinSep c (splitOnPred p l) = l := by
  intro l
  induction l with
  | nil => simp [splitOnPred, joinSep_single]
  | cons x xs ih =>
    rw [splitOnPred]
    by_cases hx : p x = true
    · have hxc : x = c := honly x hx
      subst hxc
      simp only [hx, if_true]
      cases h : splitOnPred p xs with
      | nil => exact absurd h (splitOnPred_ne_nil p xs)
      | cons piece rest =>
        rw [h] at ih
        rw [joinSep_cons2, List.nil_append, ih]
    · simp only [hx, Bool.false_eq_true, if_false]
      cases h : splitOnPred p xs with
      | nil => exact absurd h (splitOnPred_ne_nil p xs)
      | cons piece rest =>
        rw [h] at ih
        cases rest with
        | nil =>
          rw [joinSep_single]
          rw [joinSep_single] at ih
          rw [ih]
        | cons r rs =>
          rw [joinSep_cons2] at ih ⊢
          rw [List.cons_append, ih]

theorem joinSep_splitOnChar (c : Char) (l : List Char) :
    joinSep c (splitOnChar c l) = l := by
  rw [splitOnChar]
  exact joinSep_splitOnPred _ c (fun x hx => by simpa using hx) l

theorem joinSep_suffix_drop (c : Char) :
    ∀ (i : Nat) (l : List (List Char)), joinSep c (l.drop i) <:+ joinSep c l := by
  intro i
  induction i with
  | zero => intro l; simp
  | succ i ih =>
    intro l
    cases l with
    | nil => simp
    | cons x xs =>
      have h1 : (x :: xs).drop (i + 1) = xs.drop i := by simp
      rw [h1]
      refine (ih xs).trans ?_
      cases xs with
      | nil =>
        rw [joinSep_nil, joinSep_single]
        exact List.nil_suffix
      | cons y ys =>
        rw [joinSep_cons2]
        exact ⟨x ++ [c], by simp⟩

theorem joinSep_drop_ne_nil (c : Char) (l : List (List Char)) (i : Nat)
    (hi : i < l.length) (hne : l.getD i [] ≠ []) :
    joinSep c (l.drop i) ≠ [] := by
  rw [List.drop_eq_getElem_cons hi]
  refine joinSep_cons_ne_nil c _ _ (Or.inl ?_)
  rwa [List.getD_eq_getElem l [] hi] at hne

theorem joinSep_ne_nil_of_two (c : Char) (a b : List Char) (r : List (List Char)) :
    joinSep c (a :: b :: r) ≠ [] := by
  rw [joinSep_cons2]; simp

/-! ## Claim theorems -/

/-- Claim C9: `get_second_level_domain` applies the compound-TLD rule:
`secondLevelDomain("john@pr.edelman.com") = "edelman.com"` and
`secondLevelDomain("jane@company.co.uk") = "company.co.uk"`. -/
theorem C9_second_level_domain :
    CompanyResolver.get_second_level_domain (ls "john@pr.edelman.com") =
      ls "edelman.com" ∧
    CompanyResolver.get_second_level_domain (ls "jane@company.co.uk") =
      ls "company.co.uk" := by
  constructor <;> rfl

/-- Claim C10 (implicit): the display-name cleanup erases a name that is a
single trailing parenthetical — `_clean_name "(Acme Corp)"` is empty, so
`extract_from_email` on a record with that non-empty display name yields a
contact whose `name` field is empty. -/
theorem C10_cleanup_erases_name :
    ContactExtractor._clean_name (ls "(Acme Corp)") = [] ∧
    (ContactExtractor.extract_from_email
      { from_name := ls "(Acme Corp)", from_email := ls "x@acme.com",
        body := [] }).name = [] ∧
    ls "(Acme Corp)" ≠ [] := by
  refine ⟨by decide, by decide, by decide⟩

/-- Claim C6: company resolution fails closed — an empty address or one
without `@` resolves to `(none, "")` (unresolved, empty provenance tag), and
an address whose domain is in the personal-provider set yields `(none, "")`
from `resolve` for either value of `try_website` and `none` from
`get_website_url`. -/
theorem C6_resolver_fails_closed :
    (∀ (fetcher : Option (List Char → Option (List Char))) (email : List Char)
        (tw : Bool), email = [] ∨ email.contains '@' = false →
      CompanyResolver.resolve fetcher email tw = (none, [])) ∧
    (∀ (fetcher : Option (List Char → Option (List Char))) (email : List Char)
        (tw : Bool), email.contains '@' = true →
      CompanyResolver.PERSONAL_DOMAINS.contains (CompanyResolver.domainOf email) = true →
      CompanyResolver.resolve fetcher email tw = (none, []) ∧
      CompanyResolver.get_website_url email = none) := by
  constructor
  · intro fetcher email tw h
    rw [CompanyResolver.resolve]
    rcases h with h | h
    · subst h; simp
    · have hnm : ¬ ('@' ∈ email) := by simpa using h
      simp [hnm]
  · intro fetcher email tw h1 h2
    have hm : '@' ∈ email := by simpa using h1
    have hp : CompanyResolver.domainOf email ∈ CompanyResolver.PERSONAL_DOMAINS := by
      simpa using h2
    have hne : email.isEmpty = false := by
      cases email with
      | nil => simp at hm
      | cons c cs => rfl
    constructor
    · rw [CompanyResolver.resolve]
      simp [hne, hm, hp]
    · rw [CompanyResolver.get_website_url]
      simp [hne, hm, hp]

/-- Witness for C6: concrete instances — the empty address, an address
without `@`, and the personal address `user@gmail.com` (with a website
fetcher present and `try_website = true`). -/
theorem C6_resolver_fails_closed_witness :
    CompanyResolver.resolve none [] true = (none, []) ∧
    CompanyResolver.resolve none (ls "nodomain") true = (none, []) ∧
    CompanyResolver.resolve (some fun _d => some (ls "X")) (ls "user@gmail.com") true =
      (none, []) ∧
    CompanyResolver.get_website_url (ls "user@gmail.com") = none :=
  ⟨C6_resolver_fails_closed.1 none [] true (Or.inl rfl),
   C6_resolver_fails_closed.1 none (ls "nodomain") true (Or.inr (by decide)),
   (C6_resolver_fails_closed.2 (some fun _d => some (ls "X")) (ls "user@gmail.com") true
     (by decide) (by decide)).1,
   (C6_resolver_fails_closed.2 (some fun _d => some (ls "X")) (ls "user@gmail.com") true
     (by decide) (by decide)).2⟩

/-- Claim C2 helper: a successful pattern attempt returns a phone that passed
validation — it retains a formatting character and has 7–15 digits. -/
theorem tryPhonePattern_valid {line : List Char} {pat : List RAtom} {p : List Char}
    (h : ContactExtractor.tryPhonePattern line pat = some p) :
    ContactExtractor.hasFormatting p = true ∧
      7 ≤ (ContactExtractor.phoneDigits p).length ∧
      (ContactExtractor.phoneDigits p).length ≤ 15 := by
  rw [ContactExtractor.tryPhonePattern] at h
  cases hm : reSearch pat line with
  | none => rw [hm] at h; exact absurd h (by simp)
  | some m =>
    rw [hm] at h
    simp only at h
    split at h
    · rename_i hcond
      obtain ⟨h1, h2, h3⟩ := hcond
      cases h
      exact ⟨h1, h2, h3⟩
    · exact absurd h (by simp)

/-- Claim C2 helper: a line accepted by the phone extractor yields a
validated phone. -/
theorem phoneLine_valid {line p : List Char}
    (h : ContactExtractor.phoneLine line = some p) :
    ContactExtractor.hasFormatting p = true ∧
      7 ≤ (ContactExtractor.phoneDigits p).length ∧
      (ContactExtractor.phoneDigits p).length ≤ 15 := by
  rw [ContactExtractor.phoneLine] at h
  split at h
  · exact absurd h (by simp)
  · split at h
    · exact absurd h (by simp)
    · obtain ⟨pat, _, hpat⟩ := exists_of_findSome?_eq_some h
      exact tryPhonePattern_valid hpat

/-- Claim C2: the phone extractor returns a non-empty phone only if that
phone (the cleaned matched substring) retains at least one formatting
character (`+`, `-`, `(`, `.`, or an embedded space) and has between 7 and
15 digits; and on the line `"order 12345678901"` (a bare digit run) it
returns the empty string. -/
theorem C2_phone_validation :
    (∀ text : List Char, ContactExtractor._extract_phone text ≠ [] →
      ContactExtractor.hasFormatting (ContactExtractor._extract_phone text) = true ∧
      7 ≤ (ContactExtractor.phoneDigits (ContactExtractor._extract_phone text)).length ∧
      (ContactExtractor.phoneDigits (ContactExtractor._extract_phone text)).length ≤ 15) ∧
    ContactExtractor._extract_phone (ls "order 12345678901") = [] := by
  constructor
  · intro text hne
    rw [ContactExtractor._extract_phone] at hne ⊢
    cases hfs : (splitOnChar '\n' text).findSome? ContactExtractor.phoneLine with
    | none => rw [hfs] at hne; exact absurd rfl hne
    | some p =>
      simp only [Option.getD_some]
      obtain ⟨line, _, hline⟩ := exists_of_findSome?_eq_some hfs
      exact phoneLine_valid hline
  · decide

/-- Witness for C2: the line `"+971 4 123 4567"` produces a non-empty phone,
and the theorem applies to it. -/
theorem C2_phone_validation_witness :
    ContactExtractor.hasFormatting
      (ContactExtractor._extract_phone (ls "+971 4 123 4567")) = true ∧
    7 ≤ (ContactExtractor.phoneDigits
      (ContactExtractor._extract_phone (ls "+971 4 123 4567"))).length ∧
    (ContactExtractor.phoneDigits
      (ContactExtractor._extract_phone (ls "+971 4 123 4567"))).length ≤ 15 :=
  C2_phone_validation.1 (ls "+971 4 123 4567") (by decide)

/-- Claim C8: title/company mutual exclusion on the line
`"Marketing Director"` — the title extractor accepts the line (it ends in the
role suffix `Director`), the company extractor rejects it for every contact
name (either it equals the name, or the role-suffix veto fires before the
`marketing` agency indicator can accept), and on a full signature containing
it the extracted title is `"Marketing Director"` while the extracted company
is another line. -/
theorem C8_title_company_exclusion :
    ContactExtractor.titleLine (ls "Marketing Director") =
      some (ls "Marketing Director") ∧
    (∀ nameLower : List Char,
      ContactExtractor.companyLine nameLower (ls "Marketing Director") = none) ∧
    ContactExtractor._extract_title (ls "John Smith\nMarketing Director\nAcme Inc") =
      ls "Marketing Director" ∧
    ContactExtractor._extract_company (ls "John Smith\nMarketing Director\nAcme Inc")
      (ls "John Smith") = ls "Acme Inc" := by
  refine ⟨by decide, ?_, by decide, by decide⟩
  intro n
  rw [ContactExtractor.companyLine]
  cases hb : (decide ((¬ n.isEmpty) ∧ lowerL (pyStrip (ls "Marketing Director")) = n)) with
  | false => decide
  | true => decide

/-- Claim C3 helper: a phone-code detection carries source `"phone_code"`. -/
theorem detect_from_phone_source {p : List Char} {r : CountryDetector.CountryResult}
    (h : CountryDetector.detect_from_phone p = some r) : r.source = ls "phone_code" := by
  rw [CountryDetector.detect_from_phone] at h
  dsimp only [] at h
  repeat' split at h
  all_goals first
    | exact Option.noConfusion h
    | (simp only [Option.some.injEq] at h; subst h; rfl)

/-- Claim C3 helper: a signature-location detection carries source
`"signature"`. -/
theorem detect_from_signature_source {s : List Char} {r : CountryDetector.CountryResult}
    (h : CountryDetector.detect_from_signature s = some r) : r.source = ls "signature" := by
  rw [CountryDetector.detect_from_signature] at h
  dsimp only [] at h
  repeat' split at h
  all_goals first
    | exact Option.noConfusion h
    | (simp only [Option.some.injEq] at h; subst h; rfl)

/-- Claim C3 helper: a TLD detection carries source `"tld"`. -/
theorem detect_from_email_tld_source {e : List Char} {r : CountryDetector.CountryResult}
    (h : CountryDetector.detect_from_email_tld e = some r) : r.source = ls "tld" := by
  rw [CountryDetector.detect_from_email_tld] at h
  dsimp only [] at h
  repeat' split at h
  all_goals first
    | exact Option.noConfusion h
    | (simp only [Option.some.injEq] at h; subst h; rfl)

/-- Claim C3 helper: the phone arm wins whenever it succeeds. -/
theorem detect_phone_wins (phone email signature : List Char)
    (r : CountryDetector.CountryResult) (hne : phone ≠ [])
    (hdfp : CountryDetector.detect_from_phone phone = some r) :
    CountryDetector.detect phone email signature = some r := by
  rw [CountryDetector.detect]
  rw [if_pos (by simpa using hne), hdfp]

/-- Claim C3 helper: the signature arm wins when the phone arm yields
nothing. -/
theorem detect_signature_wins (phone email signature : List Char)
    (r : CountryDetector.CountryResult)
    (hp : phone = [] ∨ CountryDetector.detect_from_phone phone = none)
    (hne : signature ≠ [])
    (hdfs : CountryDetector.detect_from_signature signature = some r) :
    CountryDetector.detect phone email signature = some r := by
  rw [CountryDetector.detect]
  have h1 : (if ¬ phone.isEmpty then CountryDetector.detect_from_phone phone
      else none) = none := by
    rcases hp with hp | hp
    · subst hp; simp
    · by_cases hpe : phone.isEmpty
      · simp [hpe]
      · rw [if_pos (by simpa using hpe)]; exact hp
  rw [h1, if_pos (by simpa using hne), hdfs]

/-- Claim C3 helper: the TLD arm wins when the phone and signature arms
yield nothing. -/
theorem detect_tld_wins (phone email signature : List Char)
    (r : CountryDetector.CountryResult)
    (hp : phone = [] ∨ CountryDetector.detect_from_phone phone = none)
    (hs : signature = [] ∨ CountryDetector.detect_from_signature signature = none)
    (hne : email ≠ [])
    (hdftld : CountryDetector.detect_from_email_tld email = some r) :
    CountryDetector.detect phone email signature = some r := by
  rw [CountryDetector.detect]
  have h1 : (if ¬ phone.isEmpty then CountryDetector.detect_from_phone phone
      else none) = none := by
    rcases hp with hp | hp
    · subst hp; simp
    · by_cases hpe : phone.isEmpty
      · simp [hpe]
      · rw [if_pos (by simpa using hpe)]; exact hp
  have h2 : (if ¬ signature.isEmpty then
      CountryDetector.detect_from_signature signature else none) = none := by
    rcases hs with hs | hs
    · subst hs; simp
    · by_cases hse : signature.isEmpty
      · simp [hse]
      · rw [if_pos (by simpa using hse)]; exact hs
  rw [h1, h2, if_pos (by simpa using hne)]
  exact hdftld

/-- Claim C3 helper: all arms empty or failing gives `none`. -/
theorem detect_all_fail (phone email signature : List Char)
    (hp : phone = [] ∨ CountryDetector.detect_from_phone phone = none)
    (hs : signature = [] ∨ CountryDetector.detect_from_signature signature = none)
    (he : email = [] ∨ CountryDetector.detect_from_email_tld email = none) :
    CountryDetector.detect phone email signature = none := by
  rw [CountryDetector.detect]
  have h1 : (if ¬ phone.isEmpty then CountryDetector.detect_from_phone phone
      else none) = none := by
    rcases hp with hp | hp
    · subst hp; simp
    · by_cases hpe : phone.isEmpty
      · simp [hpe]
      · rw [if_pos (by simpa using hpe)]; exact hp
  have h2 : (if ¬ signature.isEmpty then
      CountryDetector.detect_from_signature signature else none) = none := by
    rcases hs with hs | hs
    · subst hs; simp
    · by_cases hse : signature.isEmpty
      · simp [hse]
      · rw [if_pos (by simpa using hse)]; exact hs
  rw [h1, h2]
  rcases he with he | he
  · subst he; simp
  · by_cases hee : email.isEmpty
    · simp [hee]
    · rw [if_pos (by simpa using hee)]; exact he

/-- Claim C3: country detection tries phone → signature → email-TLD in that
strict priority order, short-circuits at the first sub-detector that
succeeds (later ones cannot override it), returns `none` when all fail, and
any produced result's source tag names the sub-detector that produced it. -/
theorem C3_detect_priority :
    ∀ phone email signature : List Char,
    (∀ r, phone ≠ [] → CountryDetector.detect_from_phone phone = some r →
      CountryDetector.detect phone email signature = some r) ∧
    (∀ r, (phone = [] ∨ CountryDetector.detect_from_phone phone = none) →
      signature ≠ [] → CountryDetector.detect_from_signature signature = some r →
      CountryDetector.detect phone email signature = some r) ∧
    (∀ r, (phone = [] ∨ CountryDetector.detect_from_phone phone = none) →
      (signature = [] ∨ CountryDetector.detect_from_signature signature = none) →
      email ≠ [] → CountryDetector.detect_from_email_tld email = some r →
      CountryDetector.detect phone email signature = some r) ∧
    ((phone = [] ∨ CountryDetector.detect_from_phone phone = none) →
      (signature = [] ∨ CountryDetector.detect_from_signature signature = none) →
      (email = [] ∨ CountryDetector.detect_from_email_tld email = none) →
      CountryDetector.detect phone email signature = none) ∧
    (∀ r, CountryDetector.detect phone email signature = some r →
      (r.source = ls "phone_code" ∧
        CountryDetector.detect_from_phone phone = some r) ∨
      (r.source = ls "signature" ∧
        CountryDetector.detect_from_signature signature = some r) ∨
      (r.source = ls "tld" ∧
        CountryDetector.detect_from_email_tld email = some r)) := by
  intro phone email signature
  refine ⟨detect_phone_wins phone email signature,
    detect_signature_wins phone email signature,
    detect_tld_wins phone email signature,
    detect_all_fail phone email signature, ?_⟩
  intro r h
  cases hdfp : CountryDetector.detect_from_phone phone with
  | some r1 =>
    have hpn : phone ≠ [] := by
      intro hp
      subst hp
      rw [CountryDetector.detect_from_phone] at hdfp
      simp at hdfp
    have hd := detect_phone_wins phone email signature r1 hpn hdfp
    rw [h] at hd
    have hr := Option.some.inj hd
    subst hr
    exact Or.inl ⟨detect_from_phone_source hdfp, rfl⟩
  | none =>
    cases hdfs : CountryDetector.detect_from_signature signature with
    | some r1 =>
      have hsn : signature ≠ [] := by
        intro hs
        subst hs
        rw [CountryDetector.detect_from_signature] at hdfs
        simp at hdfs
      have hd := detect_signature_wins phone email signature r1 (Or.inr hdfp) hsn hdfs
      rw [h] at hd
      have hr := Option.some.inj hd
      subst hr
      exact Or.inr (Or.inl ⟨detect_from_signature_source hdfs, rfl⟩)
    | none =>
      cases hdftld : CountryDetector.detect_from_email_tld email with
      | some r1 =>
        have hen : email ≠ [] := by
          intro he
          subst he
          rw [CountryDetector.detect_from_email_tld] at hdftld
          simp at hdftld
        have hd := detect_tld_wins phone email signature r1 (Or.inr hdfp)
          (Or.inr hdfs) hen hdftld
        rw [h] at hd
        have hr := Option.some.inj hd
        subst hr
        exact Or.inr (Or.inr ⟨detect_from_email_tld_source hdftld, rfl⟩)
      | none =>
        have hd := detect_all_fail phone email signature (Or.inr hdfp)
          (Or.inr hdfs) (Or.inr hdftld)
        rw [h] at hd
        exact Option.noConfusion hd

/-- Witness for C3: on phone `"+971 4 123 4567"` the phone arm wins with
source `phone_code` even though the signature mentions London and the email
TLD is `.co.uk`; with no phone and no signature, the TLD arm fires; with
nothing available, detection returns `none`. -/
theorem C3_detect_priority_witness :
    CountryDetector.detect (ls "+971 4 123 4567") (ls "x@y.co.uk") (ls "London") =
      some ⟨ls "United Arab Emirates", ls "AE", ls "phone_code"⟩ ∧
    CountryDetector.detect (ls "") (ls "x@y.co.uk") (ls "") =
      some ⟨ls "United Kingdom", ls "GB", ls "tld"⟩ ∧
    CountryDetector.detect (ls "") (ls "") (ls "") = none :=
  ⟨(C3_detect_priority (ls "+971 4 123 4567") (ls "x@y.co.uk") (ls "London")).1
      ⟨ls "United Arab Emirates", ls "AE", ls "phone_code"⟩ (by decide) (by decide),
   (C3_detect_priority (ls "") (ls "x@y.co.uk") (ls "")).2.2.1
      ⟨ls "United Kingdom", ls "GB", ls "tld"⟩ (Or.inl rfl) (Or.inl rfl)
      (by decide) (by decide),
   (C3_detect_priority (ls "") (ls "") (ls "")).2.2.2.1
      (Or.inl rfl) (Or.inl rfl) (Or.inl rfl)⟩

/-- Claim C7 helper: the accumulator loop of `_extract_emails` equals
append-filter-dedup, generalised over the starting accumulator. -/
theorem collectEmails_eq_filter_dedup (pl : List Char) :
    ∀ (es acc : List (List Char)),
    ContactExtractor.collectEmails pl acc es =
      acc ++ dedupCISeen (acc.map lowerL) (es.filter (keepEmail pl)) := by
  intro es
  induction es with
  | nil => intro acc; simp [ContactExtractor.collectEmails, dedupCISeen]
  | cons e rest ih =>
    intro acc
    rw [ContactExtractor.collectEmails]
    by_cases h1 : lowerL e = pl
    · rw [if_pos h1, ih acc, List.filter_cons, if_neg (by simp [keepEmail, h1])]
    · rw [if_neg h1]
      by_cases h2 :
          (ContactExtractor.GENERIC_EMAIL_TOKENS.any fun t => containsSub (lowerL e) t) = true
      · rw [if_pos h2, ih acc, List.filter_cons, if_neg (by simp [keepEmail, h2])]
      · rw [if_neg h2]
        have hkeep : keepEmail pl e = true := by
          simp only [keepEmail, Bool.and_eq_true, bne_iff_ne, ne_eq,
            Bool.not_eq_true']
          exact ⟨h1, by simpa using h2⟩
        by_cases h3 : ((acc.map lowerL).contains (lowerL e)) = true
        · rw [if_pos h3, ih acc, List.filter_cons, if_pos hkeep]
          rw [dedupCISeen, if_pos h3]
        · rw [if_neg h3, ih (acc ++ [e]), List.filter_cons, if_pos hkeep]
          rw [dedupCISeen, if_neg h3]
          simp [List.append_assoc]

/-- Claim C7 counterexample: the source filters the generic tokens as
SUBSTRINGS of the whole address, not against the local part — for the text
`"Contact: john@noreply.com"` (primary `a@b.com`) the code returns no
secondary emails because `noreply` occurs in the DOMAIN, while the
spec-as-stated (local part `john` is not a role account) keeps the address. -/
theorem C7_counterexample_substring_filter :
    ContactExtractor._extract_emails (ls "Contact: john@noreply.com")
      (ls "a@b.com") = [] ∧
    specSecondaryEmails (ls "Contact: john@noreply.com") (ls "a@b.com") =
      [ls "john@noreply.com"] ∧
    ContactExtractor._extract_emails (ls "Contact: john@noreply.com")
      (ls "a@b.com") ≠
      specSecondaryEmails (ls "Contact: john@noreply.com") (ls "a@b.com") := by
  refine ⟨by decide, by decide, by decide⟩

/-- Claim C7 (amended): the secondary-email extractor returns exactly the
email-pattern matches of the text, minus the primary address
(case-insensitively) and minus the addresses CONTAINING one of the generic
tokens `noreply`, `no-reply`, `support@`, `info@`, `hello@`, `contact@`
anywhere as a substring (not just in the local part), deduplicated
case-insensitively, in first-seen order. -/
theorem C7_secondary_emails_amended (text primary : List Char) :
    ContactExtractor._extract_emails text primary =
      dedupCI ((reFindAll ContactExtractor.EMAIL_PATTERN_ATOMS text).filter
        (keepEmail (lowerL primary))) := by
  rw [ContactExtractor._extract_emails, dedupCI,
    collectEmails_eq_filter_dedup (lowerL primary)
      (reFindAll ContactExtractor.EMAIL_PATTERN_ATOMS text) []]
  simp

theorem findIdx?_go_eq_none {α} (p : α → Bool) (d : α) :
    ∀ (l : List α) (s : Nat), (∀ j, j < l.length → p (l.getD j d) = false) →
      List.findIdx? p l s = none := by
  intro l
  induction l with
  | nil => intro s _; exact List.findIdx?_nil
  | cons x xs ih =>
    intro s h
    rw [List.findIdx?_cons]
    have h0 : p x = false := by
      have := h 0 (by simp)
      rwa [List.getD_cons_zero] at this
    rw [h0]
    simp only [Bool.false_eq_true, if_false]
    exact ih (s + 1) (fun j hj => by
      have := h (j + 1) (by simpa using Nat.succ_lt_succ hj)
      rwa [List.getD_cons_succ] at this)

theorem findIdx?_eq_none_of_all {α} (p : α → Bool) (d : α) (l : List α)
    (h : ∀ j, j < l.length → p (l.getD j d) = false) :
    List.findIdx? p l = none :=
  findIdx?_go_eq_none p d l 0 h

/-- Claim C4: when some line of the body matches a signature delimiter, the
located signature is everything from the FIRST such line to the end of the
body; when no line matches a delimiter and no line of the last 15 starts a
signature-like window, the located signature is exactly the last 10 lines. -/
theorem C4_signature_start :
    ∀ body : List Char,
    (∀ i, i < (splitOnChar '\n' body).length →
      ContactExtractor.isSignatureDelimiter ((splitOnChar '\n' body).getD i []) = true →
      (∀ j, j < i →
        ContactExtractor.isSignatureDelimiter ((splitOnChar '\n' body).getD j []) = false) →
      ContactExtractor._extract_signature body =
        joinSep '\n' ((splitOnChar '\n' body).drop i)) ∧
    ((∀ j, j < (splitOnChar '\n' body).length →
        ContactExtractor.isSignatureDelimiter ((splitOnChar '\n' body).getD j []) = false) →
      (∀ i, (splitOnChar '\n' body).length - 15 ≤ i →
        i < (splitOnChar '\n' body).length →
        (pyStrip ((splitOnChar '\n' body).getD i [])).isEmpty = true ∨
        (pyStrip ((splitOnChar '\n' body).getD i [])).head? = some '>' ∨
        ContactExtractor.looksLikeSignatureStart ((splitOnChar '\n' body).drop i) = false) →
      ContactExtractor._extract_signature body =
        joinSep '\n'
          ((splitOnChar '\n' body).drop ((splitOnChar '\n' body).length - 10))) := by
  intro body
  constructor
  · intro i hi hp hfirst
    rw [ContactExtractor._extract_signature]
    rw [findIdx?_eq_of_first ContactExtractor.isSignatureDelimiter [] _ i hi hp hfirst]
  · intro hnone hwin
    rw [ContactExtractor._extract_signature]
    rw [findIdx?_eq_none_of_all ContactExtractor.isSignatureDelimiter [] _ hnone]
    have h2 : ContactExtractor.windowScanStart (splitOnChar '\n' body) = none := by
      rw [ContactExtractor.windowScanStart]
      apply List.find?_eq_none.mpr
      intro x hx
      have hb : (splitOnChar '\n' body).length - 15 ≤ x ∧
          x < (splitOnChar '\n' body).length := by
        rw [List.mem_range'] at hx
        obtain ⟨i0, hi0, hxe⟩ := hx
        omega
      have hdisj := hwin x hb.1 hb.2
      intro hpred
      simp only [decide_eq_true_eq] at hpred
      obtain ⟨hp1, hp2, hp3⟩ := hpred
      rcases hdisj with hd | hd | hd
      · exact hp1 (by simpa using hd)
      · exact hp2 hd
      · rw [hd] at hp3
        exact absurd hp3 (by simp)
    rw [h2]

/-- Witness for C4: the body `"Hello\nBest regards,\nJohn"` has its first
delimiter at line 1 and the located signature starts there; the body
`"a\nb\nc"` has no delimiter and no signature-like window, so the located
signature is its last (at most) 10 lines — the whole body. -/
theorem C4_signature_start_witness :
    ContactExtractor._extract_signature (ls "Hello\nBest regards,\nJohn") =
      joinSep '\n' ((splitOnChar '\n' (ls "Hello\nBest regards,\nJohn")).drop 1) ∧
    ContactExtractor._extract_signature (ls "a\nb\nc") =
      joinSep '\n' ((splitOnChar '\n' (ls "a\nb\nc")).drop
        ((splitOnChar '\n' (ls "a\nb\nc")).length - 10)) :=
  ⟨(C4_signature_start (ls "Hello\nBest regards,\nJohn")).1 1 (by decide) (by decide)
      (by
        intro j hj
        have hj0 : j = 0 := by omega
        subst hj0
        decide),
   (C4_signature_start (ls "a\nb\nc")).2
      (by
        intro j hj
        have hlen : (splitOnChar '\n' (ls "a\nb\nc")).length = 3 := by decide
        rw [hlen] at hj
        interval_cases j <;> decide)
      (by
        intro i h1 h2
        have hlen : (splitOnChar '\n' (ls "a\nb\nc")).length = 3 := by decide
        rw [hlen] at h2
        interval_cases i <;> decide)⟩

/-- Claim C5 counterexample: on the EMPTY body the signature locator returns
the empty string — not a non-empty slice as the claim asserts for every body
including the empty one. -/
theorem C5_counterexample_empty_body :
    ContactExtractor._extract_signature (ls "") = ls "" := by decide

/-- Claim C5 (amended): the signature locator never fails and always returns
a SUFFIX slice of the input (the fallback being the last 10 lines), and that
slice is non-empty whenever the body is non-empty; on the empty body it
returns the empty string. -/
theorem C5_signature_locator_amended :
    ∀ body : List Char,
    (ContactExtractor._extract_signature body) <:+ body ∧
    (body ≠ [] → ContactExtractor._extract_signature body ≠ []) := by
  intro body
  have hid : joinSep '\n' (splitOnChar '\n' body) = body := joinSep_splitOnChar '\n' body
  constructor
  · rw [ContactExtractor._extract_signature]
    cases hidx : (splitOnChar '\n' body).findIdx? ContactExtractor.isSignatureDelimiter with
    | some i =>
      show joinSep '\n' ((splitOnChar '\n' body).drop i) <:+ body
      conv_rhs => rw [← hid]
      exact joinSep_suffix_drop '\n' i (splitOnChar '\n' body)
    | none =>
      cases hwin : ContactExtractor.windowScanStart (splitOnChar '\n' body) with
      | some i =>
        show joinSep '\n' ((splitOnChar '\n' body).drop i) <:+ body
        conv_rhs => rw [← hid]
        exact joinSep_suffix_drop '\n' i (splitOnChar '\n' body)
      | none =>
        show joinSep '\n' ((splitOnChar '\n' body).drop
          ((splitOnChar '\n' body).length - 10)) <:+ body
        conv_rhs => rw [← hid]
        exact joinSep_suffix_drop '\n' _ (splitOnChar '\n' body)
  · intro hbody
    rw [ContactExtractor._extract_signature]
    cases hidx : (splitOnChar '\n' body).findIdx? ContactExtractor.isSignatureDelimiter with
    | some i =>
      obtain ⟨hi, hp⟩ := findIdx?_imp ContactExtractor.isSignatureDelimiter []
        (splitOnChar '\n' body) i hidx
      apply joinSep_drop_ne_nil '\n' (splitOnChar '\n' body) i hi
      intro hnil
      rw [hnil] at hp
      exact absurd hp (by decide)
    | none =>
      cases hwin : ContactExtractor.windowScanStart (splitOnChar '\n' body) with
      | some i =>
        rw [ContactExtractor.windowScanStart] at hwin
        have hpred := List.find?_some hwin
        have hmem := List.mem_of_find?_eq_some hwin
        have hi : i < (splitOnChar '\n' body).length := by
          rw [List.mem_range'] at hmem
          obtain ⟨i0, hi0, hie⟩ := hmem
          omega
        simp only [decide_eq_true_eq] at hpred
        obtain ⟨hp1, _, _⟩ := hpred
        apply joinSep_drop_ne_nil '\n' (splitOnChar '\n' body) i hi
        intro hnil
        rw [hnil] at hp1
        exact hp1 (by decide)
      | none =>
        by_cases hlen : (splitOnChar '\n' body).length ≤ 10
        · have h0 : (splitOnChar '\n' body).length - 10 = 0 := by omega
          rw [h0, List.drop_zero, hid]
          exact hbody
        · have hlen2 : ((splitOnChar '\n' body).drop
              ((splitOnChar '\n' body).length - 10)).length = 10 := by
            rw [List.length_drop]
            omega
          cases hdp : (splitOnChar '\n' body).drop
              ((splitOnChar '\n' body).length - 10) with
          | nil => rw [hdp] at hlen2; simp at hlen2
          | cons a t =>
            cases t with
            | nil => rw [hdp] at hlen2; simp at hlen2
            | cons b r =>
              exact joinSep_ne_nil_of_two '\n' a b r

/-- Witness for C5 (amended): on the non-empty body `"a\nb"` the located
signature is a non-empty suffix of the body. -/
theorem C5_signature_locator_amended_witness :
    (ContactExtractor._extract_signature (ls "a\nb")) <:+ ls "a\nb" ∧
    ContactExtractor._extract_signature (ls "a\nb") ≠ [] :=
  ⟨(C5_signature_locator_amended (ls "a\nb")).1,
   (C5_signature_locator_amended (ls "a\nb")).2 (by decide)⟩

/-- Claim C1 helper: one more batch covers the first `bs` of a non-empty
list. -/
theorem numBatches_step (L bs : Nat) (hbs : 0 < bs) (hL : 0 < L) :
    Categorizer.numBatches L bs = Categorizer.numBatches (L - bs) bs + 1 := by
  rw [Categorizer.numBatches, Categorizer.numBatches]
  by_cases h : L ≤ bs
  · have h1 : L - bs = 0 := by omega
    rw [h1]
    have h2 : (0 + bs - 1) / bs = 0 := Nat.div_eq_of_lt (by omega)
    rw [h2]
    have h3 : L + bs - 1 = (L - 1) + bs := by omega
    rw [h3, Nat.add_div_right _ hbs, Nat.div_eq_of_lt (by omega)]
  · have h3 : L + bs - 1 = ((L - bs) + bs - 1) + bs := by omega
    rw [h3, Nat.add_div_right _ hbs]

/-- Claim C1 helper: the consecutive `batch_size` chunks of a list
concatenate back to the list. -/
theorem chunks_flatten {α : Type} (bs : Nat) (hbs : 0 < bs) :
    ∀ (n : Nat) (l : List α), l.length ≤ n →
      ((List.range (Categorizer.numBatches l.length bs)).map
        (fun k => (l.drop (k * bs)).take bs)).flatten = l := by
  intro n
  induction n with
  | zero =>
    intro l hl
    have hnil : l = [] := List.eq_nil_of_length_eq_zero (by omega)
    subst hnil
    have h0 : Categorizer.numBatches 0 bs = 0 := by
      rw [Categorizer.numBatches]
      exact Nat.div_eq_of_lt (by omega)
    rw [List.length_nil, h0]
    simp
  | succ n ih =>
    intro l hl
    by_cases h0 : l = []
    · subst h0
      have hz : Categorizer.numBatches 0 bs = 0 := by
        rw [Categorizer.numBatches]
        exact Nat.div_eq_of_lt (by omega)
      simp only [List.length_nil, hz]
      simp
    · have hL : 0 < l.length := List.length_pos.mpr h0
      rw [numBatches_step l.length bs hbs hL, List.range_succ_eq_map, List.map_cons]
      have hmap : (List.map Nat.succ
            (List.range (Categorizer.numBatches (l.length - bs) bs))).map
            (fun k => (l.drop (k * bs)).take bs) =
          (List.range (Categorizer.numBatches ((l.drop bs).length) bs)).map
            (fun k => ((l.drop bs).drop (k * bs)).take bs) := by
        rw [List.map_map, List.length_drop]
        apply List.map_congr_left
        intro k _
        simp only [Function.comp]
        rw [List.drop_drop]
        congr 2
        rw [Nat.succ_mul, Nat.add_comm, Nat.mul_comm]
      rw [hmap, List.flatten_cons, ih (l.drop bs) (by rw [List.length_drop]; omega)]
      simp [List.take_append_drop]

/-- Claim C1 helper: a failed or malformed call degrades every position of
its batch to the empty result. -/
theorem categorize_batch_none_eq {α : Type} (emails : List α) :
    Categorizer.categorize_batch emails none =
      List.replicate emails.length Categorizer.emptyResult := by
  rw [Categorizer.categorize_batch]
  by_cases he : emails.isEmpty
  · have hnil : emails = [] := by
      cases emails with
      | nil => rfl
      | cons x xs => simp at he
    subst hnil
    simp
  · rw [if_neg he]
    have : ∀ (l : List α), l.map (fun _ => Categorizer.emptyResult) =
        List.replicate l.length Categorizer.emptyResult := by
      intro l
      induction l with
      | nil => rfl
      | cons x xs ihl => simp [ihl, List.replicate_succ]
    exact this emails

/-- Claim C1 helper: a parsed response with at most one item per email maps
the items in order and pads the tail of the batch with empty results. -/
theorem categorize_batch_some_eq {α : Type} (emails : List α)
    (data : List Categorizer.CatItem) (h : data.length ≤ emails.length) :
    Categorizer.categorize_batch emails (some data) =
      data.map Categorizer.resultOfItem ++
        List.replicate (emails.length - data.length) Categorizer.emptyResult := by
  rw [Categorizer.categorize_batch]
  by_cases he : emails.isEmpty
  · have hnil : emails = [] := by
      cases emails with
      | nil => rfl
      | cons x xs => simp at he
    subst hnil
    have h0 : data.length = 0 := by simpa using h
    have hdnil : data = [] := List.eq_nil_of_length_eq_zero h0
    subst hdnil
    simp
  · rw [if_neg he]
    simp only [List.length_map]

/-- Claim C1 counterexample: the claim quantifies over EVERY batch size and
asserts one result per input email, but the dispatcher raises (`none` here)
on `batchSize = 0` — Python's `range` rejects a zero step — and an external
response carrying more items than the batch has emails makes the dispatcher
return MORE results than inputs (2 results for 1 email). -/
theorem C1_counterexample_dispatch :
    Categorizer.categorize_emails_with_rate_limit ([()] : List Unit) 0 oracle23 =
      none ∧
    (Categorizer.categorize_emails_with_rate_limit ([()] : List Unit) 10
      oracleTwo).map List.length = some 2 := by
  constructor
  · rfl
  · rfl

/-- Claim C1 (amended): for every email list, every POSITIVE batch size, and
every per-batch oracle whose successful responses carry at most one item per
email of their batch, the dispatcher succeeds and returns exactly one result
per input email: the concatenation, in batch order, of each batch's mapped
items padded with empty results (so a failed or malformed batch degrades
exactly its own positions).  Concretely, for 23 emails and batch size 10 it
issues 3 batches of sizes 10, 10, 3 and returns 23 results, and with the
second batch's response malformed, positions 10–19 are empty while positions
0–9 and 20–22 keep their parsed values. -/
theorem C1_dispatcher_amended :
    (∀ (α : Type) (emails : List α) (bs : Nat)
        (oracle : Nat → Option (List Categorizer.CatItem)),
      0 < bs →
      (∀ k data, oracle k = some data →
        data.length ≤ ((emails.drop (k * bs)).take bs).length) →
      ∃ res, Categorizer.categorize_emails_with_rate_limit emails bs oracle =
          some res ∧
        res.length = emails.length ∧
        res = ((List.range (Categorizer.numBatches emails.length bs)).map fun k =>
          match oracle k with
          | none => List.replicate ((emails.drop (k * bs)).take bs).length
              Categorizer.emptyResult
          | some data => data.map Categorizer.resultOfItem ++
              List.replicate (((emails.drop (k * bs)).take bs).length - data.length)
                Categorizer.emptyResult).flatten) ∧
    (Categorizer.numBatches 23 10 = 3 ∧
     ((List.range 3).map fun k => ((emails23.drop (k * 10)).take 10).length) =
       [10, 10, 3] ∧
     ∃ res, Categorizer.categorize_emails_with_rate_limit emails23 10 oracle23 =
         some res ∧
       res.length = 23 ∧
       res.take 10 = List.replicate 10 (Categorizer.resultOfItem itemTech) ∧
       (res.drop 10).take 10 = List.replicate 10 Categorizer.emptyResult ∧
       res.drop 20 = List.replicate 3 (Categorizer.resultOfItem itemTravel)) := by
  constructor
  · intro α emails bs oracle hbs hor
    have hmap : ((List.range (Categorizer.numBatches emails.length bs)).map fun k =>
          Categorizer.categorize_batch ((emails.drop (k * bs)).take bs) (oracle k)) =
        ((List.range (Categorizer.numBatches emails.length bs)).map fun k =>
          match oracle k with
          | none => List.replicate ((emails.drop (k * bs)).take bs).length
              Categorizer.emptyResult
          | some data => data.map Categorizer.resultOfItem ++
              List.replicate (((emails.drop (k * bs)).take bs).length - data.length)
                Categorizer.emptyResult) := by
      apply List.map_congr_left
      intro k _
      cases ho : oracle k with
      | none => exact categorize_batch_none_eq _
      | some data => exact categorize_batch_some_eq _ data (hor k data ho)
    refine ⟨_, ?_, ?_, rfl⟩
    · rw [Categorizer.categorize_emails_with_rate_limit, if_neg (by omega), hmap]
    · have hlen : (List.map List.length
          ((List.range (Categorizer.numBatches emails.length bs)).map fun k =>
            match oracle k with
            | none => List.replicate ((emails.drop (k * bs)).take bs).length
                Categorizer.emptyResult
            | some data => data.map Categorizer.resultOfItem ++
                List.replicate (((emails.drop (k * bs)).take bs).length - data.length)
                  Categorizer.emptyResult)) =
          List.map List.length
            ((List.range (Categorizer.numBatches emails.length bs)).map fun k =>
              (emails.drop (k * bs)).take bs) := by
        rw [List.map_map, List.map_map]
        apply List.map_congr_left
        intro k _
        simp only [Function.comp]
        cases ho : oracle k with
        | none => simp
        | some data =>
          have hd := hor k data ho
          simp only [List.length_append, List.length_map, List.length_replicate]
          omega
      rw [List.length_flatten, hlen, ← List.length_flatten,
        chunks_flatten bs hbs emails.length emails (Nat.le_refl _)]
  · refine ⟨by decide, by decide, ?_⟩
    exact ⟨_, rfl, by decide, by decide, by decide, by decide⟩

/-- Witness for C1 (amended): the universal part applied to the concrete
23-email scenario with batch size 10 and the partially-failing oracle. -/
theorem C1_dispatcher_amended_witness :
    ∃ res, Categorizer.categorize_emails_with_rate_limit emails23 10 oracle23 =
        some res ∧
      res.length = emails23.length ∧
      res = ((List.range (Categorizer.numBatches emails23.length 10)).map fun k =>
        match oracle23 k with
        | none => List.replicate ((emails23.drop (k * 10)).take 10).length
            Categorizer.emptyResult
        | some data => data.map Categorizer.resultOfItem ++
            List.replicate (((emails23.drop (k * 10)).take 10).length - data.length)
              Categorizer.emptyResult).flatten :=
  C1_dispatcher_amended.1 Unit emails23 10 oracle23 (by omega)
    (by
      intro k data hk
      match k, hk with
      | 0, hk =>
        have hd : data = List.replicate 10 itemTech := by
          have := Option.some.inj hk
          exact this.symm
        subst hd
        decide
      | 2, hk =>
        have hd : data = List.replicate 3 itemTravel := by
          have := Option.some.inj hk
          exact this.symm
        subst hd
        decide)
